import Mathlib

/-!
Verification model of the policy-compliance crawler (src/crawler.js).

The browser-automation collaborator is modelled as an oracle `Site`: a list
of links extracted from the homepage, a navigation-success function and a
body-text function, both keyed by URL (each navigation to the same URL is
assumed to give the same outcome; the crawler keeps one browsing session, so
the current page is threaded through the audit state as `cur`).  JavaScript
strings are Lean `String`s, JS status strings become enumerations, and JS
exceptions become `Except` values: the regular expressions the source builds
from the raw legal name are modelled on the literal fragment actually used
(word characters joined by whitespace), with an `Except.error` outside that
fragment, mirroring that `new RegExp` can throw on metacharacters.
-/

deriving instance DecidableEq for Except

namespace Crawler

/-- Whitespace as matched by the JS regex class backslash-s (ASCII whitespace
plus no-break space; the rarer Unicode space code points are not used by any
input modelled here). -/
def jsIsSpace (c : Char) : Bool :=
  c == ' ' || c == '\t' || c == '\n' || c == '\r' || c == '\u000b' ||
  c == '\u000c' || c == ' '

/-- Word characters of the JS regex class backslash-w: [A-Za-z0-9_]. -/
def isWordChar (c : Char) : Bool :=
  ('a' ≤ c && c ≤ 'z') || ('A' ≤ c && c ≤ 'Z') || ('0' ≤ c && c ≤ '9') || c == '_'

/-- Splits a character list into its maximal whitespace-free words, the
accumulator holding the (reversed) word being read. -/
def splitWsAux : List Char → List Char → List (List Char)
  | [], acc => if acc = [] then [] else [acc.reverse]
  | c :: cs, acc =>
    if jsIsSpace c then
      if acc = [] then splitWsAux cs [] else acc.reverse :: splitWsAux cs []
    else splitWsAux cs (c :: acc)

/-- The whitespace-separated words of a character list. -/
def splitWs (l : List Char) : List (List Char) := splitWsAux l []

/-- Joins words with single spaces. -/
def joinWords : List (List Char) → List Char
  | [] => []
  | [w] => w
  | w :: ws => w ++ ' ' :: joinWords ws

/-- `normalize` from the source: lower-case, collapse each whitespace run to
a single space, trim.  Collapsing every run and trimming the ends is the same
as joining the whitespace-separated words with single spaces. -/
def normalizeL (l : List Char) : List Char :=
  joinWords (splitWs (l.map Char.toLower))

/-- `normalize` on strings; `null`/absent input is modelled as `""`. -/
def normalize (s : String) : String := String.mk (normalizeL s.toList)

/-- JS `String.prototype.trim` on a character list. -/
def jsTrim (l : List Char) : List Char :=
  ((l.dropWhile jsIsSpace).reverse.dropWhile jsIsSpace).reverse

/-- JS `text.includes(pat)`: substring containment, as the existence of a
position where the pattern is a prefix of the remainder. -/
def strContains (text pat : String) : Bool :=
  (List.range (text.toList.length + 1)).any
    (fun i => pat.toList.isPrefixOf (text.toList.drop i))

/-- `containsAny` from the source. -/
def containsAny (text : String) (keywords : List String) : Bool :=
  keywords.any (fun k => strContains text k)

/-- The business-entity suffixes stripped from a legal name, in the
alternation order of the source regex. -/
def suffixList : List (List Char) :=
  ["llc".toList, "inc".toList, "ltd".toList, "corp".toList,
   "corporation".toList, "co".toList, "company".toList, "limited".toList]

/-- Length of the suffix matched at the head of `l` by the word-bounded
suffix alternation, given whether the previous character was a word
character (word boundary on the left requires it was not).  The right
boundary requires the next character to be a non-word character or the end.
Alternatives are tried in source order, as the JS regex engine does. -/
def suffixMatchLen (l : List Char) (prevW : Bool) : Option Nat :=
  if prevW then none
  else
    suffixList.findSome? (fun suf =>
      if suf.isPrefixOf l &&
         (match l.drop suf.length with
          | [] => true
          | d :: _ => !isWordChar d) then
        some suf.length
      else none)

/-- Global replacement of the word-bounded suffix alternation by the empty
string, scanning left to right; `prevW` records whether the previous
character of the original string was a word character (every suffix ends in
a word character, so after a removal the flag is true).  Each step consumes
at least one character, so fuel equal to the length of the list makes the
recursion structural and never reaches zero on a non-empty list. -/
def removeSuffixesFuel : Nat → List Char → Bool → List Char
  | 0, l, _ => l
  | _ + 1, [], _ => []
  | fuel + 1, c :: cs, prevW =>
    match suffixMatchLen (c :: cs) prevW with
    | some n => removeSuffixesFuel fuel (cs.drop (n - 1)) true
    | none => c :: removeSuffixesFuel fuel cs (isWordChar c)

/-- Suffix removal over a whole list. -/
def removeSuffixes (l : List Char) : List Char :=
  removeSuffixesFuel l.length l false

/-- `cleanLegalName` from the source: normalize, strip entity suffixes as
whole words, trim. -/
def cleanedName (legalName : String) : List Char :=
  jsTrim (removeSuffixes (normalizeL legalName.toList))

/-- The pattern fragment modelled exactly: every character of the cleaned
name is a word character or whitespace.  Within this fragment each
constructed JS regex is a word-bounded literal; outside it the constructor
may throw (for example on an unmatched parenthesis), which the model reports
as an error. -/
def fragmentOk (clean : List Char) : Bool :=
  clean.all (fun c => isWordChar c || jsIsSpace c)

/-- Error message used for the modelled `new RegExp` syntax error. -/
def regexErrMsg : String := "Invalid regular expression"

/-- Matches the literal characters of `w` at the head of `cs`, returning the
remainder. -/
def matchHere (cs : List Char) (w : List Char) : Option (List Char) :=
  if w.isPrefixOf cs then some (cs.drop w.length) else none

/-- Matches `parts` joined by one-or-more whitespace characters starting
exactly at the head of `cs`.  Parts begin with word characters, so the
greedy whitespace run never needs backtracking. -/
def matchPartsHere : List (List Char) → List Char → Option (List Char)
  | [], cs => some cs
  | [w], cs => matchHere cs w
  | w :: v :: ws, cs =>
    match matchHere cs w with
    | none => none
    | some rest =>
      let k := (rest.takeWhile jsIsSpace).length
      if k = 0 then none else matchPartsHere (v :: ws) (rest.drop k)

/-- Word boundary after a match: end of text or a non-word character. -/
def boundaryAfterOk : List Char → Bool
  | [] => true
  | d :: _ => !isWordChar d

/-- Scans every position of the text for a word-bounded occurrence of
`parts` joined by whitespace; `prevW` is whether the previous character is a
word character (the left boundary requires it is not). -/
def scanWordAux (parts : List (List Char)) : List Char → Bool → Bool
  | [], _ => false
  | c :: rest, prevW =>
    (!prevW &&
      (match matchPartsHere parts (c :: rest) with
       | some after => boundaryAfterOk after
       | none => false))
    || scanWordAux parts rest (isWordChar c)

/-- Case-insensitive word-bounded test of the pattern built from `parts`
against a text already mapped to lower case. -/
def wordPatternTest (textLower : List Char) (parts : List (List Char)) : Bool :=
  scanWordAux parts textLower false

/-- The page text lowered character-wise, as `pageText.toLowerCase()`. -/
def lowerList (s : String) : List Char := s.toList.map Char.toLower

/-- JS `indexOf` for a list needle: the least index at which the needle is a
prefix of the remainder. -/
def jsIndexOf (hay needle : List Char) : Option Nat :=
  (List.range (hay.length + 1)).find? (fun i => needle.isPrefixOf (hay.drop i))

/-- JS `lastIndexOf` for a list needle. -/
def jsLastIndexOf (hay needle : List Char) : Option Nat :=
  (List.range (hay.length + 1)).reverse.find? (fun i => needle.isPrefixOf (hay.drop i))

/-- The whitespace-separated components of the cleaned legal name; the exact
pattern is these components joined by whitespace wildcards. -/
def exactParts (legalName : String) : List (List Char) :=
  splitWs (cleanedName legalName)

/-- `nameParts` from the source: components of length greater than 2. -/
def significantParts (legalName : String) : List (List Char) :=
  (exactParts legalName).filter (fun p => 2 < p.length)

/-- `foundParts` from the source: the significant parts that occur word
bounded (case-insensitively) in the page. -/
def foundPartsOf (pageText legalName : String) : List (List Char) :=
  (significantParts legalName).filter
    (fun p => wordPatternTest (lowerList pageText) [p])

/-- The proximity decision of the source (lines 98 to 106): first occurrence
of the first found part, last occurrence of the last found part, accepted
when their distance is under 200 characters. -/
def proximityHitB (pageText legalName : String) : Bool :=
  match jsIndexOf (lowerList pageText) ((foundPartsOf pageText legalName).headD []),
        jsLastIndexOf (lowerList pageText) ((foundPartsOf pageText legalName).getLastD []) with
  | some fi, some li => decide (((li : Int) - (fi : Int)).natAbs < 200)
  | _, _ => false

/-- `containsLegalName` from the source.  A legal name whose cleaned form
leaves the modelled literal regex fragment yields `Except.error`, mirroring
the `new RegExp` constructor throwing; every other path returns a boolean. -/
def containsLegalName (pageText legalName : String) : Except String Bool :=
  if jsTrim legalName.toList = [] then .ok false
  else if cleanedName legalName = [] then .ok false
  else if fragmentOk (cleanedName legalName) = false then .error regexErrMsg
  else if wordPatternTest (lowerList pageText) (splitWs (cleanedName legalName)) = true then
    .ok true
  else if 2 ≤ (significantParts legalName).length then
    if 2 ≤ (foundPartsOf pageText legalName).length then
      .ok (proximityHitB pageText legalName)
    else .ok false
  else if (significantParts legalName).length = 1 then
    .ok (wordPatternTest (lowerList pageText) [(significantParts legalName).headD []])
  else .ok false

/-- The six policy kinds of POLICY_CONFIG. -/
inductive PolicyKind
  | privacy
  | terms
  | shipping
  | returns
  | refund
  | cancellation
deriving DecidableEq, Repr, Fintype

/-- Merchant types. -/
inductive MerchantType
  | goods
  | services
deriving DecidableEq, Repr, Fintype

/-- Anchor-text hints per policy kind, from POLICY_CONFIG. -/
def anchorHints : PolicyKind → List String
  | .privacy => ["privacy"]
  | .terms => ["terms"]
  | .shipping => ["shipping", "delivery"]
  | .returns => ["return", "returns"]
  | .refund => ["refund"]
  | .cancellation => ["cancellation", "cancel"]

/-- Page-content keywords per policy kind, from POLICY_CONFIG. -/
def pageKeywords : PolicyKind → List String
  | .privacy => ["privacy policy", "privacy notice", "privacy practices"]
  | .terms => ["terms and conditions", "terms & conditions", "terms of use", "terms of service"]
  | .shipping => ["shipping", "delivery"]
  | .returns => ["return policy", "returns policy", "return"]
  | .refund => ["refund policy", "refund"]
  | .cancellation => ["cancellation policy", "cancellation", "cancelling", "cancel"]

/-- Applicable merchant types per policy kind, from POLICY_CONFIG. -/
def relevantFor : PolicyKind → List MerchantType
  | .privacy => [.goods, .services]
  | .terms => [.goods, .services]
  | .shipping => [.goods]
  | .returns => [.goods]
  | .refund => [.goods, .services]
  | .cancellation => [.goods, .services]

/-- POLICY_ORDER from the source. -/
def POLICY_ORDER : MerchantType → List PolicyKind
  | .goods => [.privacy, .terms, .shipping, .returns, .refund, .cancellation]
  | .services => [.privacy, .terms, .refund, .cancellation]

/-- RESOLVABLE_GROUP from the source. -/
def RESOLVABLE_GROUP : MerchantType → List PolicyKind
  | .goods => [.shipping, .returns, .refund, .cancellation]
  | .services => [.refund, .cancellation]

/-- `isPolicyRelevant` from the source. -/
def isPolicyRelevant (p : PolicyKind) (mt : MerchantType) : Bool :=
  (relevantFor p).contains mt

/-- `determineMerchantType` from the source; absent input is the empty
string and defaults to goods. -/
def determineMerchantType (input : String) : MerchantType :=
  if input = "" then .goods
  else if strContains (normalize input) "good" then .goods
  else .services

/-- `isProprietorship` from the source; absent input defaults to true. -/
def isProprietorship (entityType : String) : Bool :=
  if entityType = "" then true
  else strContains (normalize entityType) "proprietor"

/-- Status tags of a policy outcome: the source strings FOUND, MISSING and
NOT RELEVANT. -/
inductive PStatus
  | FOUND
  | MISSING
  | NOT_RELEVANT
deriving DecidableEq, Repr

/-- The tri-state `legalNamePresent` field: true, false, or the string
NOT RELEVANT. -/
inductive LegalNameState
  | present
  | absent
  | notRelevant
deriving DecidableEq, Repr

/-- Compliance verdict strings PASS and FAIL. -/
inductive Verdict
  | PASS
  | FAIL
deriving DecidableEq, Repr

/-- Entries of `missingPolicies`: a policy key or the literal string
"legal name". -/
inductive MissingItem
  | pol (p : PolicyKind)
  | legalNameItem
deriving DecidableEq, Repr

/-- Per-policy outcome; `pageTextC` is the transient cached page text the
source stores on the outcome and deletes at final evaluation. -/
structure PolicyOutcome where
  present : Bool
  url : Option String
  pageTextC : Option String
  status : PStatus
deriving DecidableEq, Repr

/-- A record of `visitedPages`: url, normalized page text, and the policy
kind being sought when the page was fetched. -/
structure VisitedPage where
  url : String
  pageTextC : String
  policyType : PolicyKind
deriving DecidableEq, Repr

/-- A homepage link as extracted by the browsing collaborator. -/
structure Link where
  text : String
  href : String
deriving DecidableEq, Repr

/-- The browsing collaborator: homepage links, per-URL navigation success,
and per-URL body text (read for the current page after a navigation). -/
structure Site where
  links : List Link
  goto : String → Bool
  body : String → String

/-- The mutable audit state threaded through the four passes.  The fields
`missingPolicies`, `allRelevantPoliciesMissing` and `complianceStatus` of the
source result object are only ever written by the final evaluation, so they
are not part of the pass state; `cur` is the URL of the page currently
loaded in the shared browsing session. -/
structure ScanState where
  policies : PolicyKind → PolicyOutcome
  legalNamePresent : LegalNameState
  legalNameURL : Option String
  visitedPages : List VisitedPage
  cur : String

/-- Per-audit context: the collaborator plus the values fixed at the start
of `checkWebsite` (the normalized homepage links, merchant type,
proprietorship flag and legal name). -/
structure Ctx where
  site : Site
  website : String
  mt : MerchantType
  prop : Bool
  legalName : String
  links : List Link

/-- Functional update of the policy map. -/
def setPolicy (m : PolicyKind → PolicyOutcome) (k : PolicyKind) (v : PolicyOutcome) :
    PolicyKind → PolicyOutcome :=
  fun q => if q = k then v else m q

/-- Initial policy map: MISSING for relevant kinds, NOT RELEVANT otherwise,
as in the initialization loop of `checkWebsite`. -/
def initPolicies (mt : MerchantType) : PolicyKind → PolicyOutcome :=
  fun p =>
    if isPolicyRelevant p mt then
      { present := false, url := none, pageTextC := none, status := .MISSING }
    else
      { present := false, url := none, pageTextC := none, status := .NOT_RELEVANT }

/-- Initial scan state, current page being the homepage. -/
def initScan (mt : MerchantType) (website : String) (prop : Bool) : ScanState :=
  { policies := initPolicies mt
    legalNamePresent := if prop then .absent else .notRelevant
    legalNameURL := none
    visitedPages := []
    cur := website }

/-- The state carried by an audit step, whether it succeeded or raised. -/
def carriedState : Except (String × ScanState) ScanState → ScanState
  | .ok st => st
  | .error (_, st) => st

/-- The outcome written by pass 1 when a link page passes the keyword
test. -/
def foundOutcome (c : Ctx) (l : Link) : PolicyOutcome :=
  { present := true
    url := some l.href
    pageTextC := some (normalize (c.site.body l.href))
    status := .FOUND }

/-- The legal-name probe shared by the passes: guarded by proprietorship, a
still-unset tri-state and a non-empty legal name; an exception from the
matcher aborts with the current state. -/
def legalProbe (c : Ctx) (text : String) (url : String) (st : ScanState) :
    Except (String × ScanState) ScanState :=
  if c.prop = true ∧ st.legalNamePresent = .absent ∧ c.legalName ≠ "" then
    match containsLegalName text c.legalName with
    | .error m => .error (m, st)
    | .ok true => .ok { st with legalNamePresent := .present, legalNameURL := some url }
    | .ok false => .ok st
  else .ok st

/-- The inner loop of pass 1 for one policy kind: scan the homepage links in
order; skip links with empty href or text, links whose anchor text matches
no hint, and links whose navigation fails; on the first link whose page
passes the keyword test, record the outcome, probe for the legal name,
navigate back to the homepage and stop. -/
def scanLinks (c : Ctx) (p : PolicyKind) :
    List Link → ScanState → Except (String × ScanState) ScanState
  | [], st => .ok st
  | l :: rest, st =>
    if l.href = "" ∨ l.text = "" then scanLinks c p rest st
    else if containsAny l.text (anchorHints p) = false then scanLinks c p rest st
    else if c.site.goto l.href = false then scanLinks c p rest st
    else if containsAny (normalize (c.site.body l.href)) (pageKeywords p) = true then
      match
        legalProbe c (normalize (c.site.body l.href)) l.href
          { st with
            cur := l.href
            visitedPages := st.visitedPages ++ [⟨l.href, normalize (c.site.body l.href), p⟩]
            policies := setPolicy st.policies p (foundOutcome c l) }
      with
      | .error e => .error e
      | .ok st4 =>
        .ok (if c.site.goto c.website then { st4 with cur := c.website } else st4)
    else
      scanLinks c p rest
        { st with
          cur := l.href
          visitedPages := st.visitedPages ++ [⟨l.href, normalize (c.site.body l.href), p⟩] }

/-- Pass 1: iterate the ordered checklist, skipping irrelevant kinds. -/
def pass1 (c : Ctx) : List PolicyKind → ScanState → Except (String × ScanState) ScanState
  | [], st => .ok st
  | p :: ps, st =>
    if isPolicyRelevant p c.mt = false then pass1 c ps st
    else
      match scanLinks c p c.links st with
      | .error e => .error e
      | .ok st1 => pass1 c ps st1

/-- `presentSources` of the group-resolution pass: the group outcomes that
are present and still hold a (truthy) cached page text. -/
def presentSources (mt : MerchantType) (st : ScanState) : List PolicyOutcome :=
  ((RESOLVABLE_GROUP mt).map (fun p => st.policies p)).filter
    (fun o => o.present && (o.pageTextC.getD "" ≠ "" : Bool))

/-- The outcome copied from a group source when its cached text resolves a
policy. -/
def groupFound (src : PolicyOutcome) : PolicyOutcome :=
  { present := true, url := src.url, pageTextC := src.pageTextC, status := .FOUND }

/-- Inner loop of pass 2 over the sources for one unresolved policy: the
first source whose cached text contains a keyword resolves it (with a
legal-name probe on the same text).  Setting the policy does not change the
legal-name state, so the probe guard reads it from `st` directly. -/
def pass2Sources (mt : MerchantType) (prop : Bool) (legalName : String) (p : PolicyKind) :
    List PolicyOutcome → ScanState → Except (String × ScanState) ScanState
  | [], st => .ok st
  | src :: rest, st =>
    if containsAny (src.pageTextC.getD "") (pageKeywords p) = true then
      if prop = true ∧ st.legalNamePresent = .absent ∧ legalName ≠ "" then
        match containsLegalName (src.pageTextC.getD "") legalName with
        | .error m =>
          .error (m, { st with policies := setPolicy st.policies p (groupFound src) })
        | .ok true =>
          .ok { st with
            policies := setPolicy st.policies p (groupFound src)
            legalNamePresent := .present
            legalNameURL := src.url }
        | .ok false =>
          .ok { st with policies := setPolicy st.policies p (groupFound src) }
      else .ok { st with policies := setPolicy st.policies p (groupFound src) }
    else pass2Sources mt prop legalName p rest st

/-- Pass 2 over the group kinds, with a fixed source list collected at the
start of the outer iteration: kinds that are irrelevant or already present
are skipped. -/
def pass2Group (mt : MerchantType) (prop : Bool) (legalName : String)
    (sources : List PolicyOutcome) :
    List PolicyKind → ScanState → Except (String × ScanState) ScanState
  | [], st => .ok st
  | p :: ps, st =>
    if isPolicyRelevant p mt = false ∨ (st.policies p).present = true then
      pass2Group mt prop legalName sources ps st
    else
      match pass2Sources mt prop legalName p sources st with
      | .error e => .error e
      | .ok st1 => pass2Group mt prop legalName sources ps st1

/-- Outer loop of pass 2: `for (let i = 0; i < GROUP.length; i++)`, breaking
early when no group policy with cached text is present. -/
def pass2Outer (mt : MerchantType) (prop : Bool) (legalName : String) :
    Nat → ScanState → Except (String × ScanState) ScanState
  | 0, st => .ok st
  | n + 1, st =>
    if presentSources mt st = [] then .ok st
    else
      match pass2Group mt prop legalName (presentSources mt st) (RESOLVABLE_GROUP mt) st with
      | .error e => .error e
      | .ok st1 => pass2Outer mt prop legalName n st1

/-- Pass 2, the group-resolution pass.  The source block navigates nowhere:
of the context it reads only the merchant type, proprietorship flag and
legal name. -/
def pass2 (c : Ctx) (st : ScanState) : Except (String × ScanState) ScanState :=
  pass2Outer c.mt c.prop c.legalName (RESOLVABLE_GROUP c.mt).length st

/-- Pass 3, the legal-name verification: re-navigate to the recorded source
URL and re-run the matcher; on a mismatch reset presence and URL. -/
def pass3 (c : Ctx) (st : ScanState) : Except (String × ScanState) ScanState :=
  if c.prop = true ∧ st.legalNamePresent = .present ∧ st.legalNameURL.getD "" ≠ "" then
    if c.site.goto (st.legalNameURL.getD "") = true then
      match containsLegalName (normalize (c.site.body (st.legalNameURL.getD "")))
          c.legalName with
      | .error m => .error (m, { st with cur := st.legalNameURL.getD "" })
      | .ok true => .ok { st with cur := st.legalNameURL.getD "" }
      | .ok false =>
        .ok { st with
          cur := st.legalNameURL.getD ""
          legalNamePresent := .absent
          legalNameURL := none }
    else .ok st
  else .ok st

/-- Pass 4 step 1: scan the visited-page cache, first hit wins. -/
def pass4Visited (c : Ctx) :
    List VisitedPage → ScanState → Except (String × ScanState) ScanState
  | [], st => .ok st
  | v :: vs, st =>
    match containsLegalName v.pageTextC c.legalName with
    | .error m => .error (m, st)
    | .ok true =>
      .ok { st with legalNamePresent := .present, legalNameURL := some v.url }
    | .ok false => pass4Visited c vs st

/-- Pass 4 step 2: re-navigate to the homepage (the navigation result is
ignored by the source, so a failure leaves the session on the previous
page, whose body is then read) and test its text. -/
def pass4Home (c : Ctx) (st : ScanState) : Except (String × ScanState) ScanState :=
  if st.legalNamePresent = .absent then
    if c.site.goto c.website = true then
      match containsLegalName (normalize (c.site.body c.website)) c.legalName with
      | .error m => .error (m, { st with cur := c.website })
      | .ok true =>
        .ok { st with
          cur := c.website
          legalNamePresent := .present
          legalNameURL := some c.website }
      | .ok false => .ok { st with cur := c.website }
    else
      match containsLegalName (normalize (c.site.body st.cur)) c.legalName with
      | .error m => .error (m, st)
      | .ok true =>
        .ok { st with legalNamePresent := .present, legalNameURL := some c.website }
      | .ok false => .ok st
  else .ok st

/-- Pass 4 step 3 inner loop: visit up to the first two category links,
skipping failed navigations; on a hit stop, otherwise navigate back to the
homepage and continue.  Updating the current page does not change the
legal-name state, so the (never-firing) stop check after the back
navigation reads it from `st` directly. -/
def pass4TryLinks (c : Ctx) :
    List Link → ScanState → Except (String × ScanState) ScanState
  | [], st => .ok st
  | l :: ls, st =>
    if c.site.goto l.href = false then pass4TryLinks c ls st
    else
      match containsLegalName (normalize (c.site.body l.href)) c.legalName with
      | .error m => .error (m, { st with cur := l.href })
      | .ok true =>
        .ok { st with
          cur := l.href
          legalNamePresent := .present
          legalNameURL := some l.href }
      | .ok false =>
        if st.legalNamePresent = .present then
          .ok { st with cur := if c.site.goto c.website = true then c.website else l.href }
        else
          pass4TryLinks c ls
            { st with cur := if c.site.goto c.website = true then c.website else l.href }

/-- Pass 4 step 3 outer loop over the page categories, stopping once the
name has been found. -/
def pass4Cats (c : Ctx) :
    List String → ScanState → Except (String × ScanState) ScanState
  | [], st => .ok st
  | cat :: cats, st =>
    match pass4TryLinks c
        ((c.links.filter (fun l => strContains l.text cat && (l.href ≠ "" : Bool))).take 2)
        st with
    | .error e => .error e
    | .ok st1 =>
      if st1.legalNamePresent = .present then .ok st1 else pass4Cats c cats st1

/-- The category substrings of pass 4 step 3. -/
def otherPages : List String := ["contact", "about", "info", "us", "company"]

/-- Pass 4, the comprehensive fallback search, guarded by proprietorship, a
still-unset name and a non-empty supplied name; steps 2 and 3 each re-check
that the name is still unset. -/
def pass4 (c : Ctx) (st : ScanState) : Except (String × ScanState) ScanState :=
  if c.prop = true ∧ st.legalNamePresent = .absent ∧ c.legalName ≠ "" then
    match pass4Visited c st.visitedPages st with
    | .error e => .error e
    | .ok s1 =>
      match pass4Home c s1 with
      | .error e => .error e
      | .ok s2 =>
        if s2.legalNamePresent = .absent then pass4Cats c otherPages s2 else .ok s2
  else .ok st

/-- The four passes in order, raising with the partial state on the first
exception. -/
def auditPasses (c : Ctx) (st : ScanState) : Except (String × ScanState) ScanState :=
  match pass1 c (POLICY_ORDER c.mt) st with
  | .error e => .error e
  | .ok s1 =>
    match pass2 c s1 with
    | .error e => .error e
    | .ok s2 =>
      match pass3 c s2 with
      | .error e => .error e
      | .ok s3 => pass4 c s3

/-- The status-and-cache update the final-evaluation loop applies to a
relevant policy outcome: status MISSING when not present, cached page text
cleared. -/
def finalOutcomeUpdate (o : PolicyOutcome) : PolicyOutcome :=
  { (if o.present = false then { o with status := PStatus.MISSING } else o) with
    pageTextC := none }

/-- The final-evaluation loop over the checklist: for each relevant policy
not present, push it onto the missing list and set its status to MISSING;
clear the cached page text of every relevant policy. -/
def finalLoop (mt : MerchantType) :
    List PolicyKind → (PolicyKind → PolicyOutcome) →
    (PolicyKind → PolicyOutcome) × List MissingItem
  | [], pols => (pols, [])
  | p :: ps, pols =>
    if isPolicyRelevant p mt = true then
      ((finalLoop mt ps (setPolicy pols p (finalOutcomeUpdate (pols p)))).1,
       (if (pols p).present = false then [MissingItem.pol p] else []) ++
         (finalLoop mt ps (setPolicy pols p (finalOutcomeUpdate (pols p)))).2)
    else finalLoop mt ps pols

/-- The missing list reported by the final evaluation: the policies pushed
by the loop, then the literal legal-name item for a proprietorship whose
non-empty legal name was not found. -/
def finalMissing (mt : MerchantType) (prop : Bool) (legalName : String) (st : ScanState) :
    List MissingItem :=
  (finalLoop mt (POLICY_ORDER mt) st.policies).2 ++
    (if prop = true ∧ st.legalNamePresent = .absent ∧ legalName ≠ "" then
      [MissingItem.legalNameItem]
    else [])

/-- The all-relevant-policies-missing flag: no relevant policy of the
(post-loop) map is present. -/
def finalAllMissing (mt : MerchantType) (st : ScanState) : Bool :=
  (((POLICY_ORDER mt).filter (fun p => isPolicyRelevant p mt)).filter
    (fun p => ((finalLoop mt (POLICY_ORDER mt) st.policies).1 p).present)).length = 0

/-- The compliance verdict: PASS exactly when every checklist policy is
irrelevant or present and (no proprietorship or legal name present). -/
def finalVerdict (mt : MerchantType) (prop : Bool) (st : ScanState) : Verdict :=
  if ((POLICY_ORDER mt).all (fun p => !isPolicyRelevant p mt ||
        ((finalLoop mt (POLICY_ORDER mt) st.policies).1 p).present) &&
      (!prop || (st.legalNamePresent = .present : Bool))) then
    .PASS
  else .FAIL

/-- The reported fields produced by the final evaluation. -/
structure FinalOut where
  pols : PolicyKind → PolicyOutcome
  missing : List MissingItem
  allMissing : Bool
  verdict : Verdict

/-- Final evaluation of `checkWebsite`: missing items (policies in checklist
order, then possibly the literal legal-name item), the
all-relevant-policies-missing flag, and the compliance verdict. -/
def finalEval (mt : MerchantType) (prop : Bool) (legalName : String) (st : ScanState) :
    FinalOut :=
  { pols := (finalLoop mt (POLICY_ORDER mt) st.policies).1
    missing := finalMissing mt prop legalName st
    allMissing := finalAllMissing mt st
    verdict := finalVerdict mt prop st }

/-- The per-merchant audit result. -/
structure Result where
  website : String
  merchantType : String
  determinedMerchantType : MerchantType
  entityType : String
  isProprietorship : Bool
  legalName : String
  legalNamePresent : LegalNameState
  legalNameURL : Option String
  policies : PolicyKind → PolicyOutcome
  missingPolicies : List MissingItem
  allRelevantPoliciesMissing : Bool
  complianceStatus : Verdict
  error : Option String

/-- The audit context assembled at the start of `checkWebsite`; the raw
homepage links have their anchor text normalized. -/
def mkCtx (site : Site) (website mtInput entityType legalName : String) : Ctx :=
  { site := site
    website := website
    mt := determineMerchantType mtInput
    prop := isProprietorship entityType
    legalName := legalName
    links := site.links.map (fun l => { text := normalize l.text, href := l.href }) }

/-- `checkWebsite` from the source: classify the merchant, initialize the
result, load the homepage (an immediate failure is reported as the error
string with the initial result), run the four passes under the
exception handler, and apply the final evaluation. -/
def checkWebsite (site : Site) (website mtInput entityType legalNameRaw : String) : Result :=
  let c := mkCtx site website mtInput entityType legalNameRaw
  let st0 := initScan c.mt website c.prop
  let base : Result :=
    { website := website
      merchantType := mtInput
      determinedMerchantType := c.mt
      entityType := entityType
      isProprietorship := c.prop
      legalName := legalNameRaw
      legalNamePresent := st0.legalNamePresent
      legalNameURL := none
      policies := st0.policies
      missingPolicies := []
      allRelevantPoliciesMissing := false
      complianceStatus := .FAIL
      error := none }
  if site.goto website = false then
    { base with error := some "Failed to load website" }
  else
    match auditPasses c st0 with
    | .ok st =>
      let f := finalEval c.mt c.prop c.legalName st
      { base with
        legalNamePresent := st.legalNamePresent
        legalNameURL := st.legalNameURL
        policies := f.pols
        missingPolicies := f.missing
        allRelevantPoliciesMissing := f.allMissing
        complianceStatus := f.verdict }
    | .error (m, st) =>
      { base with
        legalNamePresent := st.legalNamePresent
        legalNameURL := st.legalNameURL
        policies := st.policies
        error := some m }

/-- The ManualCheckingRequired column of the report: YES exactly when the
all-relevant-policies-missing flag is set. -/
def manualCheckingRequired (r : Result) : String :=
  if r.allRelevantPoliciesMissing then "YES" else "NO"

/-- The relevance invariant on a policy map: a policy has status
NOT RELEVANT exactly when its kind is outside the applicability set of the
merchant type. -/
def InvPol (mt : MerchantType) (pols : PolicyKind → PolicyOutcome) : Prop :=
  ∀ p, ((pols p).status = PStatus.NOT_RELEVANT ↔ isPolicyRelevant p mt = false)

/-- A homepage link that pass 1 accepts for a policy kind: non-empty href
and (normalized) anchor text, an anchor-hint match, a successful navigation,
and a page passing the keyword test. -/
def goodLink (c : Ctx) (p : PolicyKind) (l : Link) : Bool :=
  (l.href ≠ "" : Bool) && (l.text ≠ "" : Bool) &&
  containsAny l.text (anchorHints p) && c.site.goto l.href &&
  containsAny (normalize (c.site.body l.href)) (pageKeywords p)

/-- A site with no homepage links where every navigation succeeds. -/
def siteEmpty : Site :=
  { links := [], goto := fun _ => true, body := fun _ => "welcome" }

/-- A site where every navigation fails. -/
def siteDown : Site :=
  { links := [], goto := fun _ => false, body := fun _ => "" }

/-- A site whose first privacy-matching link leads to a page failing the
keyword test while the second passes it. -/
def siteTwoPrivacy : Site :=
  { links := [{ text := "Privacy One", href := "https://s/p1" },
              { text := "Privacy Two", href := "https://s/p2" }]
    goto := fun _ => true
    body := fun u =>
      if u = "https://s/p1" then "nothing here"
      else if u = "https://s/p2" then "our privacy policy text"
      else "home" }

/-- The audit context of the two-privacy-link example. -/
def cTwoPrivacy : Ctx := mkCtx siteTwoPrivacy "https://s" "goods" "private limited" ""

/-- The state reached by pass 1 on the two-privacy-link example. -/
def pass1TwoPrivacySt : ScanState :=
  carriedState
    (pass1 cTwoPrivacy (POLICY_ORDER cTwoPrivacy.mt)
      (initScan cTwoPrivacy.mt cTwoPrivacy.website cTwoPrivacy.prop))

/-- A site offering all four services policies on four links. -/
def siteAllFour : Site :=
  { links := [{ text := "Privacy", href := "u1" }, { text := "Terms", href := "u2" },
              { text := "Refund", href := "u3" }, { text := "Cancellation", href := "u4" }]
    goto := fun _ => true
    body := fun u =>
      if u = "u1" then "privacy policy"
      else if u = "u2" then "terms of service"
      else if u = "u3" then "refund policy"
      else if u = "u4" then "cancellation policy"
      else "home" }

/-- Initial scan state of a services merchant, used as a sample state. -/
def stServ : ScanState := initScan .services "https://e" false

/-- The sample state with a services-irrelevant policy altered, agreeing
with `stServ` on every relevant policy. -/
def stServAlt : ScanState :=
  { stServ with
    policies := setPolicy stServ.policies .shipping
      { present := true, url := some "u", pageTextC := none, status := .FOUND } }

/-- Audit context of a proprietorship with a legal name containing an
unmatched parenthesis on the empty site. -/
def cEmptyProp : Ctx := mkCtx siteEmpty "https://e" "" "" "(aa bb"

/-- A page text with the two name parts 180 characters apart. -/
def prox180Text : String := "john " ++ String.mk (List.replicate 174 'z') ++ " doe"

/-- A page text with the two name parts 200 characters apart. -/
def prox200Text : String := "john " ++ String.mk (List.replicate 194 'z') ++ " doe"

theorem setPolicy_same (m : PolicyKind → PolicyOutcome) (k : PolicyKind) (v : PolicyOutcome) :
    setPolicy m k v k = v := by
  simp [setPolicy]

theorem setPolicy_other (m : PolicyKind → PolicyOutcome) (k : PolicyKind) (v : PolicyOutcome)
    (q : PolicyKind) (h : q ≠ k) : setPolicy m k v q = m q := by
  simp [setPolicy, h]

theorem carried_ok (st : ScanState) : carriedState (.ok st) = st := rfl

theorem carried_error (m : String) (st : ScanState) :
    carriedState (.error (m, st)) = st := rfl

theorem order_covers (mt : MerchantType) (p : PolicyKind)
    (h : isPolicyRelevant p mt = true) : p ∈ POLICY_ORDER mt := by
  revert h
  cases mt <;> cases p <;> decide

theorem order_nodup (mt : MerchantType) : (POLICY_ORDER mt).Nodup := by
  cases mt <;> decide

theorem initPolicies_present (mt : MerchantType) (p : PolicyKind) :
    (initPolicies mt p).present = false := by
  by_cases h : isPolicyRelevant p mt = true <;> simp [initPolicies, h]

theorem initPolicies_url (mt : MerchantType) (p : PolicyKind) :
    (initPolicies mt p).url = none := by
  by_cases h : isPolicyRelevant p mt = true <;> simp [initPolicies, h]

theorem invpol_init (mt : MerchantType) : InvPol mt (initPolicies mt) := by
  intro p
  by_cases h : isPolicyRelevant p mt = true <;> simp [initPolicies, h]

/-- `checkWebsite` when the homepage navigation fails: the initial result
with the load-failure error string. -/
theorem checkWebsite_down (site : Site) (w mti et ln : String)
    (hg : site.goto w = false) :
    checkWebsite site w mti et ln =
      { website := w
        merchantType := mti
        determinedMerchantType := determineMerchantType mti
        entityType := et
        isProprietorship := isProprietorship et
        legalName := ln
        legalNamePresent := if isProprietorship et then .absent else .notRelevant
        legalNameURL := none
        policies := initPolicies (determineMerchantType mti)
        missingPolicies := []
        allRelevantPoliciesMissing := false
        complianceStatus := .FAIL
        error := some "Failed to load website" } := by
  simp only [checkWebsite, mkCtx, initScan, hg, if_pos]

/-- `checkWebsite` when the passes complete: the final evaluation applied to
the reached state. -/
theorem checkWebsite_ok (site : Site) (w mti et ln : String) (st : ScanState)
    (hg : site.goto w = true)
    (hap : auditPasses (mkCtx site w mti et ln)
      (initScan (determineMerchantType mti) w (isProprietorship et)) = .ok st) :
    checkWebsite site w mti et ln =
      { website := w
        merchantType := mti
        determinedMerchantType := determineMerchantType mti
        entityType := et
        isProprietorship := isProprietorship et
        legalName := ln
        legalNamePresent := st.legalNamePresent
        legalNameURL := st.legalNameURL
        policies := (finalEval (determineMerchantType mti) (isProprietorship et) ln st).pols
        missingPolicies := (finalEval (determineMerchantType mti) (isProprietorship et) ln st).missing
        allRelevantPoliciesMissing :=
          (finalEval (determineMerchantType mti) (isProprietorship et) ln st).allMissing
        complianceStatus := (finalEval (determineMerchantType mti) (isProprietorship et) ln st).verdict
        error := none } := by
  have hmt : (mkCtx site w mti et ln).mt = determineMerchantType mti := rfl
  have hpr : (mkCtx site w mti et ln).prop = isProprietorship et := rfl
  have hln : (mkCtx site w mti et ln).legalName = ln := rfl
  simp only [checkWebsite, hg, hmt, hpr, hln, hap]
  rfl

/-- `checkWebsite` when a pass raises: the partial state with the recorded
error string, the missing list still empty and the verdict still FAIL. -/
theorem checkWebsite_err (site : Site) (w mti et ln m : String) (st : ScanState)
    (hg : site.goto w = true)
    (hap : auditPasses (mkCtx site w mti et ln)
      (initScan (determineMerchantType mti) w (isProprietorship et)) = .error (m, st)) :
    checkWebsite site w mti et ln =
      { website := w
        merchantType := mti
        determinedMerchantType := determineMerchantType mti
        entityType := et
        isProprietorship := isProprietorship et
        legalName := ln
        legalNamePresent := st.legalNamePresent
        legalNameURL := st.legalNameURL
        policies := st.policies
        missingPolicies := []
        allRelevantPoliciesMissing := false
        complianceStatus := .FAIL
        error := some m } := by
  have hmt : (mkCtx site w mti et ln).mt = determineMerchantType mti := rfl
  have hpr : (mkCtx site w mti et ln).prop = isProprietorship et := rfl
  simp only [checkWebsite, hg, hmt, hpr, hap]
  rfl

/-- Claim C10: when the homepage navigation fails, the result carries the
load-failure error, verdict FAIL, every relevant policy MISSING, yet an
empty missing list, a false all-missing flag and ManualCheckingRequired NO,
because the final evaluation is skipped. -/
theorem claim10_theorem (site : Site) (w mti et ln : String) (r : Result)
    (hfail : site.goto w = false) (hr : r = checkWebsite site w mti et ln) :
    r.error = some "Failed to load website" ∧
    r.complianceStatus = .FAIL ∧
    (∀ p, isPolicyRelevant p r.determinedMerchantType = true →
      (r.policies p).status = .MISSING) ∧
    r.missingPolicies = [] ∧
    r.allRelevantPoliciesMissing = false ∧
    manualCheckingRequired r = "NO" := by
  subst hr
  rw [checkWebsite_down site w mti et ln hfail]
  refine ⟨rfl, rfl, ?_, rfl, rfl, rfl⟩
  intro p hp
  simp [initPolicies, hp]

/-- Claim C10 witness: a concrete unreachable site. -/
theorem claim10_witness :
    siteDown.goto "https://d" = false ∧
    (checkWebsite siteDown "https://d" "goods" "llp" "X").error =
      some "Failed to load website" ∧
    (checkWebsite siteDown "https://d" "goods" "llp" "X").complianceStatus = .FAIL ∧
    (checkWebsite siteDown "https://d" "goods" "llp" "X").missingPolicies = [] ∧
    (checkWebsite siteDown "https://d" "goods" "llp" "X").allRelevantPoliciesMissing = false ∧
    manualCheckingRequired (checkWebsite siteDown "https://d" "goods" "llp" "X") = "NO" := by
  have h := claim10_theorem siteDown "https://d" "goods" "llp" "X"
    (checkWebsite siteDown "https://d" "goods" "llp" "X") rfl rfl
  exact ⟨rfl, h.1, h.2.1, h.2.2.2.1, h.2.2.2.2.1, h.2.2.2.2.2⟩

/-- Claim C9: a legal name with an unmatched parenthesis makes the matcher
raise instead of returning a boolean, and the exception surfaces as the
whole-audit error string of the merchant result. -/
theorem claim9_theorem :
    containsLegalName "welcome" "(aa bb" = .error regexErrMsg ∧
    (checkWebsite siteEmpty "https://e" "goods" "proprietor" "(aa bb").error =
      some regexErrMsg ∧
    (checkWebsite siteEmpty "https://e" "goods" "proprietor" "(aa bb").complianceStatus =
      .FAIL := by
  refine ⟨by decide, by decide, by decide⟩

/-- Claim C6: the group-resolution pass reads nothing of the browsing
collaborator (zero navigation), its outer loop is the bounded iteration
with fuel equal to the group size, and it stops immediately when no group
policy with cached text is present; being a total function, it always
terminates. -/
theorem claim6_theorem :
    (∀ (s1 s2 : Site) (w1 w2 : String) (l1 l2 : List Link) (mt : MerchantType)
       (prop : Bool) (ln : String) (st : ScanState),
       pass2 ⟨s1, w1, mt, prop, ln, l1⟩ st = pass2 ⟨s2, w2, mt, prop, ln, l2⟩ st) ∧
    (∀ (c : Ctx) (st : ScanState),
       pass2 c st = pass2Outer c.mt c.prop c.legalName (RESOLVABLE_GROUP c.mt).length st) ∧
    (∀ (c : Ctx) (st : ScanState),
       presentSources c.mt st = [] → pass2 c st = .ok st) := by
  refine ⟨fun _ _ _ _ _ _ _ _ _ _ => rfl, fun _ _ => rfl, ?_⟩
  intro c st h
  show pass2Outer c.mt c.prop c.legalName (RESOLVABLE_GROUP c.mt).length st = .ok st
  cases hmt : c.mt <;>
    (rw [hmt] at h; simp [RESOLVABLE_GROUP, pass2Outer, h])

/-- Claim C6 witness: an early stop on a source-free state and the
site-independence instance for two different sites. -/
theorem claim6_witness :
    presentSources (mkCtx siteEmpty "https://e" "services" "pvt" "").mt stServ = [] ∧
    pass2 (mkCtx siteEmpty "https://e" "services" "pvt" "") stServ = .ok stServ ∧
    pass2 ⟨siteEmpty, "w1", .goods, false, "", []⟩ stServ =
      pass2 ⟨siteTwoPrivacy, "w2", .goods, false, "", [{ text := "a", href := "b" }]⟩ stServ := by
  refine ⟨by decide, ?_, ?_⟩
  · exact claim6_theorem.2.2 (mkCtx siteEmpty "https://e" "services" "pvt" "") stServ (by decide)
  · exact claim6_theorem.1 siteEmpty siteTwoPrivacy "w1" "w2" [] [{ text := "a", href := "b" }]
      .goods false "" stServ

/-- Claim C7: a failed navigation on a candidate link in the primary pass
only skips that link, and an exception inside the passes is caught, recorded
as the error string, and leaves the result with the per-policy state reached
before the exception (missing list untouched, verdict FAIL). -/
theorem claim7_theorem :
    (∀ (c : Ctx) (p : PolicyKind) (l : Link) (ls : List Link) (st : ScanState),
       c.site.goto l.href = false →
       scanLinks c p (l :: ls) st = scanLinks c p ls st) ∧
    (∀ (site : Site) (w mti et ln m : String) (st : ScanState),
       site.goto w = true →
       auditPasses (mkCtx site w mti et ln)
         (initScan (determineMerchantType mti) w (isProprietorship et)) = .error (m, st) →
       (checkWebsite site w mti et ln).error = some m ∧
       (checkWebsite site w mti et ln).policies = st.policies ∧
       (checkWebsite site w mti et ln).legalNamePresent = st.legalNamePresent ∧
       (checkWebsite site w mti et ln).missingPolicies = [] ∧
       (checkWebsite site w mti et ln).complianceStatus = .FAIL) := by
  constructor
  · intro c p l ls st hnav
    rw [scanLinks]
    by_cases h1 : l.href = "" ∨ l.text = ""
    · rw [if_pos h1]
    · rw [if_neg h1]
      by_cases h2 : containsAny l.text (anchorHints p) = false
      · rw [if_pos h2]
      · rw [if_neg h2, if_pos hnav]
  · intro site w mti et ln m st hg hap
    rw [checkWebsite_err site w mti et ln m st hg hap]
    exact ⟨rfl, rfl, rfl, rfl, rfl⟩

theorem finalOutcomeUpdate_present (o : PolicyOutcome) :
    (finalOutcomeUpdate o).present = o.present := by
  by_cases h : o.present = false <;> simp [finalOutcomeUpdate, h]

theorem finalLoop_fst_present (mt : MerchantType) :
    ∀ (ord : List PolicyKind) (pols : PolicyKind → PolicyOutcome) (q : PolicyKind),
    ((finalLoop mt ord pols).1 q).present = (pols q).present := by
  intro ord
  induction ord with
  | nil => intro pols q; rfl
  | cons p ps ih =>
    intro pols q
    rw [finalLoop]
    by_cases hrel : isPolicyRelevant p mt = true
    · rw [if_pos hrel]
      show ((finalLoop mt ps (setPolicy pols p (finalOutcomeUpdate (pols p)))).1 q).present = _
      rw [ih]
      by_cases hq : q = p
      · subst hq; rw [setPolicy_same, finalOutcomeUpdate_present]
      · rw [setPolicy_other _ _ _ _ hq]
    · rw [if_neg hrel]; exact ih pols q

theorem finalLoop_mem (mt : MerchantType) :
    ∀ (ord : List PolicyKind) (pols : PolicyKind → PolicyOutcome) (x : MissingItem),
    x ∈ (finalLoop mt ord pols).2 →
    ∃ q, x = MissingItem.pol q ∧ q ∈ ord ∧ isPolicyRelevant q mt = true ∧
      (pols q).present = false := by
  intro ord
  induction ord with
  | nil => intro pols x hx; rw [finalLoop] at hx; cases hx
  | cons p ps ih =>
    intro pols x hx
    rw [finalLoop] at hx
    by_cases hrel : isPolicyRelevant p mt = true
    · rw [if_pos hrel] at hx
      rcases List.mem_append.mp hx with h | h
      · by_cases hp : (pols p).present = false
        · rw [if_pos hp] at h
          have hx2 : x = MissingItem.pol p := List.mem_singleton.mp h
          exact ⟨p, hx2, List.mem_cons_self p ps, hrel, hp⟩
        · rw [if_neg hp] at h; cases h
      · rcases ih _ x h with ⟨q, hxq, hqmem, hqrel, hqpres⟩
        refine ⟨q, hxq, List.mem_cons_of_mem _ hqmem, hqrel, ?_⟩
        by_cases hq : q = p
        · subst hq
          rw [setPolicy_same, finalOutcomeUpdate_present] at hqpres
          exact hqpres
        · rw [setPolicy_other _ _ _ _ hq] at hqpres; exact hqpres
    · rw [if_neg hrel] at hx
      rcases ih _ x hx with ⟨q, hxq, hqmem, hqrel, hqpres⟩
      exact ⟨q, hxq, List.mem_cons_of_mem _ hqmem, hqrel, hqpres⟩

theorem finalLoop_missing_nil (mt : MerchantType)
    (ord : List PolicyKind) (pols : PolicyKind → PolicyOutcome)
    (h : ∀ q ∈ ord, isPolicyRelevant q mt = true → (pols q).present = true) :
    (finalLoop mt ord pols).2 = [] := by
  rcases heq : (finalLoop mt ord pols).2 with _ | ⟨x, xs⟩
  · rfl
  · exfalso
    have hx : x ∈ (finalLoop mt ord pols).2 := by
      rw [heq]; exact List.mem_cons_self x xs
    rcases finalLoop_mem mt ord pols x hx with ⟨q, _, hqmem, hqrel, hqpres⟩
    rw [h q hqmem hqrel] at hqpres
    cases hqpres

theorem finalVerdict_pass_iff (mt : MerchantType) (prop : Bool) (st : ScanState) :
    finalVerdict mt prop st = .PASS ↔
    ((∀ p, isPolicyRelevant p mt = true →
       ((finalLoop mt (POLICY_ORDER mt) st.policies).1 p).present = true) ∧
     (prop = true → st.legalNamePresent = .present)) := by
  unfold finalVerdict
  split
  case isTrue hc =>
    simp only [Bool.and_eq_true, List.all_eq_true, Bool.or_eq_true, Bool.not_eq_true',
      decide_eq_true_eq] at hc
    constructor
    · intro _
      constructor
      · intro p hrel
        rcases hc.1 p (order_covers mt p hrel) with h | h
        · rw [hrel] at h; cases h
        · exact h
      · intro hp
        rcases hc.2 with h | h
        · rw [hp] at h; cases h
        · exact h
    · intro _; rfl
  case isFalse hc =>
    constructor
    · intro h; exact absurd h (by decide)
    · rintro ⟨h1, h2⟩
      exfalso
      apply hc
      simp only [Bool.and_eq_true, List.all_eq_true, Bool.or_eq_true, Bool.not_eq_true',
        decide_eq_true_eq]
      constructor
      · intro p _
        by_cases hrel : isPolicyRelevant p mt = true
        · right; exact h1 p hrel
        · left; simp only [Bool.not_eq_true] at hrel; exact hrel
      · by_cases hprop : prop = true
        · right; exact h2 hprop
        · left; simp only [Bool.not_eq_true] at hprop; exact hprop

theorem finalAllMissing_iff (mt : MerchantType) (st : ScanState) :
    finalAllMissing mt st = true ↔
    (∀ p, isPolicyRelevant p mt = true →
      ((finalLoop mt (POLICY_ORDER mt) st.policies).1 p).present = false) := by
  unfold finalAllMissing
  simp only [decide_eq_true_eq, List.length_eq_zero, List.filter_eq_nil_iff]
  constructor
  · intro h p hrel
    have hmem : p ∈ (POLICY_ORDER mt).filter (fun q => isPolicyRelevant q mt) :=
      List.mem_filter.mpr ⟨order_covers mt p hrel, hrel⟩
    have h2 := h p hmem
    simp only [Bool.not_eq_true] at h2
    exact h2
  · intro h p hmem
    have hrel := (List.mem_filter.mp hmem).2
    simp [h p hrel]

theorem manualCheckingRequired_yes_iff (r : Result) :
    manualCheckingRequired r = "YES" ↔ r.allRelevantPoliciesMissing = true := by
  unfold manualCheckingRequired
  cases h : r.allRelevantPoliciesMissing <;> simp [h]

/-- Claim C2: for an audit that completes without a whole-audit error, the
verdict is PASS exactly when every relevant policy is present and (no
proprietorship or the legal name is present), and a PASS comes with an
empty missing list. -/
theorem claim2_theorem (site : Site) (w mti et ln : String) (r : Result)
    (hr : r = checkWebsite site w mti et ln) (herr : r.error = none) :
    (r.complianceStatus = .PASS ↔
      ((∀ p, isPolicyRelevant p r.determinedMerchantType = true →
         (r.policies p).present = true) ∧
       (r.isProprietorship = true → r.legalNamePresent = .present))) ∧
    (r.complianceStatus = .PASS → r.missingPolicies = []) := by
  subst hr
  by_cases hg : site.goto w = false
  · rw [checkWebsite_down site w mti et ln hg] at herr
    cases herr
  · have hg' : site.goto w = true := by
      revert hg; cases site.goto w <;> simp
    cases hap : auditPasses (mkCtx site w mti et ln)
        (initScan (determineMerchantType mti) w (isProprietorship et)) with
    | error e =>
      rcases e with ⟨m, st⟩
      rw [checkWebsite_err site w mti et ln m st hg' hap] at herr
      cases herr
    | ok st =>
      rw [checkWebsite_ok site w mti et ln st hg' hap]
      constructor
      · exact finalVerdict_pass_iff (determineMerchantType mti) (isProprietorship et) st
      · intro hpass
        have hp2 : finalVerdict (determineMerchantType mti) (isProprietorship et) st = .PASS :=
          hpass
        have hiff := (finalVerdict_pass_iff (determineMerchantType mti)
          (isProprietorship et) st).mp hp2
        show finalMissing (determineMerchantType mti) (isProprietorship et) ln st = []
        unfold finalMissing
        rw [finalLoop_missing_nil]
        · rw [if_neg]
          · rfl
          · rintro ⟨hprop, habs, _⟩
            rw [hiff.2 hprop] at habs
            cases habs
        · intro q _ hqrel
          have := hiff.1 q hqrel
          rw [finalLoop_fst_present] at this
          exact this

/-- Claim C2 witness: a services merchant with all four relevant policies
found passes with an empty missing list. -/
theorem claim2_witness :
    (checkWebsite siteAllFour "https://m" "services" "private limited" "").error = none ∧
    (checkWebsite siteAllFour "https://m" "services" "private limited" "").complianceStatus =
      .PASS ∧
    (checkWebsite siteAllFour "https://m" "services" "private limited" "").missingPolicies =
      [] := by
  have h := claim2_theorem siteAllFour "https://m" "services" "private limited" ""
    (checkWebsite siteAllFour "https://m" "services" "private limited" "") rfl (by decide)
  exact ⟨by decide, h.1.mpr ⟨by decide, by decide⟩, h.2 (h.1.mpr ⟨by decide, by decide⟩)⟩

/-- Claim C5: for an audit that reaches final evaluation, the all-missing
flag is set exactly when no relevant policy ended present (independently of
the legal-name outcome), and ManualCheckingRequired is YES exactly when the
flag is set. -/
theorem claim5_theorem (site : Site) (w mti et ln : String) (r : Result)
    (hr : r = checkWebsite site w mti et ln) (herr : r.error = none) :
    (r.allRelevantPoliciesMissing = true ↔
      (∀ p, isPolicyRelevant p r.determinedMerchantType = true →
        (r.policies p).present = false)) ∧
    (manualCheckingRequired r = "YES" ↔ r.allRelevantPoliciesMissing = true) := by
  subst hr
  refine ⟨?_, manualCheckingRequired_yes_iff _⟩
  by_cases hg : site.goto w = false
  · rw [checkWebsite_down site w mti et ln hg] at herr
    cases herr
  · have hg' : site.goto w = true := by
      revert hg; cases site.goto w <;> simp
    cases hap : auditPasses (mkCtx site w mti et ln)
        (initScan (determineMerchantType mti) w (isProprietorship et)) with
    | error e =>
      rcases e with ⟨m, st⟩
      rw [checkWebsite_err site w mti et ln m st hg' hap] at herr
      cases herr
    | ok st =>
      rw [checkWebsite_ok site w mti et ln st hg' hap]
      exact finalAllMissing_iff (determineMerchantType mti) st

/-- Claim C5 witness: a services merchant with no links at all raises the
manual-review flag. -/
theorem claim5_witness :
    (checkWebsite siteEmpty "https://e" "services" "private limited" "").error = none ∧
    (checkWebsite siteEmpty "https://e" "services" "private limited" "").allRelevantPoliciesMissing =
      true ∧
    manualCheckingRequired (checkWebsite siteEmpty "https://e" "services" "private limited" "") =
      "YES" := by
  have h := claim5_theorem siteEmpty "https://e" "services" "private limited" ""
    (checkWebsite siteEmpty "https://e" "services" "private limited" "") rfl (by decide)
  exact ⟨by decide, h.1.mpr (by decide), h.2.mpr (h.1.mpr (by decide))⟩

theorem find?_cons_neg {α : Type} (p : α → Bool) (a : α) (l : List α) (h : p a = false) :
    List.find? p (a :: l) = List.find? p l := by
  apply List.find?_cons_of_neg
  simp [h]

theorem legalProbe_ok_policies (c : Ctx) (t u : String) (st st' : ScanState)
    (h : legalProbe c t u st = .ok st') : st'.policies = st.policies := by
  unfold legalProbe at h
  by_cases hg : c.prop = true ∧ st.legalNamePresent = .absent ∧ c.legalName ≠ ""
  · rw [if_pos hg] at h
    rcases hcln : containsLegalName t c.legalName with m | b
    · rw [hcln] at h; exact Except.noConfusion h
    · rw [hcln] at h
      cases b
      · injection h with h2; subst h2; rfl
      · injection h with h2; subst h2; rfl
  · rw [if_neg hg] at h
    injection h with h2; subst h2; rfl

theorem scanLinks_ok_policies (c : Ctx) (p : PolicyKind) :
    ∀ (ls : List Link) (st st' : ScanState),
    scanLinks c p ls st = .ok st' →
    st'.policies =
      (match ls.find? (goodLink c p) with
       | some l => setPolicy st.policies p (foundOutcome c l)
       | none => st.policies) := by
  intro ls
  induction ls with
  | nil =>
    intro st st' h
    injection h with h2
    subst h2
    rfl
  | cons l rest ih =>
    intro st st' h
    simp only [scanLinks] at h
    by_cases h1 : l.href = "" ∨ l.text = ""
    · rw [if_pos h1] at h
      have hgl : goodLink c p l = false := by
        rcases h1 with h1 | h1 <;> simp [goodLink, h1]
      rw [find?_cons_neg _ _ _ hgl]
      exact ih st st' h
    · rw [if_neg h1] at h
      by_cases h2 : containsAny l.text (anchorHints p) = false
      · rw [if_pos h2] at h
        have hgl : goodLink c p l = false := by simp [goodLink, h2]
        rw [find?_cons_neg _ _ _ hgl]
        exact ih st st' h
      · rw [if_neg h2] at h
        by_cases h3 : c.site.goto l.href = false
        · rw [if_pos h3] at h
          have hgl : goodLink c p l = false := by simp [goodLink, h3]
          rw [find?_cons_neg _ _ _ hgl]
          exact ih st st' h
        · rw [if_neg h3] at h
          push_neg at h1
          simp only [Bool.not_eq_false] at h2 h3
          by_cases h4 :
              containsAny (normalize (c.site.body l.href)) (pageKeywords p) = true
          · rw [if_pos h4] at h
            have hgl : goodLink c p l = true := by
              simp [goodLink, h1.1, h1.2, h2, h3, h4]
            rw [List.find?_cons_of_pos _ hgl]
            rcases hlp :
                legalProbe c (normalize (c.site.body l.href)) l.href
                  { st with
                    cur := l.href
                    visitedPages :=
                      st.visitedPages ++ [⟨l.href, normalize (c.site.body l.href), p⟩]
                    policies := setPolicy st.policies p (foundOutcome c l) }
              with e | st4
            · rw [hlp] at h; exact Except.noConfusion h
            · rw [hlp] at h
              injection h with h2
              subst h2
              have hp4 := legalProbe_ok_policies _ _ _ _ _ hlp
              by_cases hw : c.site.goto c.website = true
              · rw [if_pos hw]
                exact hp4
              · rw [if_neg hw]
                exact hp4
          · rw [if_neg h4] at h
            have hgl : goodLink c p l = false := by
              simp only [Bool.not_eq_true] at h4
              simp [goodLink, h4]
            rw [find?_cons_neg _ _ _ hgl]
            exact ih { st with
              cur := l.href
              visitedPages :=
                st.visitedPages ++ [⟨l.href, normalize (c.site.body l.href), p⟩] } st' h

theorem pass1_ok_policies (c : Ctx) :
    ∀ (ord : List PolicyKind) (st st' : ScanState),
    ord.Nodup → pass1 c ord st = .ok st' →
    ∀ p, st'.policies p =
      (if p ∈ ord ∧ isPolicyRelevant p c.mt = true then
        (match c.links.find? (goodLink c p) with
         | some l => foundOutcome c l
         | none => st.policies p)
      else st.policies p) := by
  intro ord
  induction ord with
  | nil =>
    intro st st' _ h p
    injection h with h2
    subst h2
    have hnc : ¬(p ∈ ([] : List PolicyKind) ∧ isPolicyRelevant p c.mt = true) := by
      rintro ⟨hmem, _⟩
      cases hmem
    rw [if_neg hnc]
  | cons q qs ih =>
    intro st st' hnd h p
    have hnd2 := List.nodup_cons.mp hnd
    simp only [pass1] at h
    by_cases hrel : isPolicyRelevant q c.mt = false
    · rw [if_pos hrel] at h
      have hih := ih st st' hnd2.2 h p
      rw [hih]
      by_cases hp : p ∈ qs ∧ isPolicyRelevant p c.mt = true
      · rw [if_pos hp, if_pos ⟨List.mem_cons_of_mem _ hp.1, hp.2⟩]
      · rw [if_neg hp, if_neg ?_]
        rintro ⟨hmem, hprel⟩
        rcases List.mem_cons.mp hmem with h5 | h5
        · rw [h5] at hprel
          rw [hprel] at hrel
          exact Bool.noConfusion hrel
        · exact hp ⟨h5, hprel⟩
    · rw [if_neg hrel] at h
      simp only [Bool.not_eq_false] at hrel
      rcases hsc : scanLinks c q c.links st with e | st1
      · rw [hsc] at h; exact Except.noConfusion h
      · rw [hsc] at h
        have hst1 := scanLinks_ok_policies c q c.links st st1 hsc
        have hih := ih st1 st' hnd2.2 h p
        rw [hih]
        by_cases hp : p ∈ qs ∧ isPolicyRelevant p c.mt = true
        · rw [if_pos hp, if_pos ⟨List.mem_cons_of_mem _ hp.1, hp.2⟩]
          cases hf : c.links.find? (goodLink c p) with
          | some l => rfl
          | none =>
            have hpq : p ≠ q := fun hh => hnd2.1 (hh ▸ hp.1)
            rw [hst1]
            cases hf2 : c.links.find? (goodLink c q) with
            | some l2 => exact setPolicy_other _ _ _ _ hpq
            | none => rfl
        · rw [if_neg hp]
          by_cases hpq : p = q
          · subst hpq
            rw [if_pos ⟨List.mem_cons_self p qs, hrel⟩]
            rw [hst1]
            cases hf : c.links.find? (goodLink c p) with
            | some l => exact setPolicy_same _ _ _
            | none => rfl
          · rw [if_neg ?_]
            · rw [hst1]
              cases hf2 : c.links.find? (goodLink c q) with
              | some l2 => exact setPolicy_other _ _ _ _ hpq
              | none => rfl
            · rintro ⟨hmem, hprel⟩
              rcases List.mem_cons.mp hmem with h5 | h5
              · exact hpq h5
              · exact hp ⟨h5, hprel⟩

/-- Claim C1 counterexample: on a site whose first privacy-matching link
fails the keyword test, the privacy policy is nonetheless resolved within
pass 1 from the second matching link, so the claimed not-present outcome is
refuted. -/
theorem claim1_counterexample :
    containsAny (normalize (siteTwoPrivacy.body "https://s/p1")) (pageKeywords .privacy) =
      false ∧
    (cTwoPrivacy.links.headD { text := "", href := "" }).href = "https://s/p1" ∧
    containsAny (cTwoPrivacy.links.headD { text := "", href := "" }).text
      (anchorHints .privacy) = true ∧
    (pass1TwoPrivacySt.policies .privacy).present = true ∧
    ((checkWebsite siteTwoPrivacy "https://s" "goods" "private limited" "").policies
        .privacy).status = .FOUND ∧
    ((checkWebsite siteTwoPrivacy "https://s" "goods" "private limited" "").policies
        .privacy).url = some "https://s/p2" := by
  exact ⟨by decide, by decide, by decide, by decide, by decide, by decide⟩

/-- Claim C1 (amended): within pass 1 a matched link whose page fails the
keyword test is merely skipped, the next matching link is tried; the first
link passing both the anchor and keyword tests wins and sets the URL, and
the policy ends pass 1 not present exactly when no successfully fetched
matching link passes the keyword test. -/
theorem claim1_theorem (c : Ctx) (st' : ScanState)
    (h : pass1 c (POLICY_ORDER c.mt) (initScan c.mt c.website c.prop) = .ok st')
    (p : PolicyKind) (hrel : isPolicyRelevant p c.mt = true) :
    ((st'.policies p).present = true ↔ ∃ l ∈ c.links, goodLink c p l = true) ∧
    (st'.policies p).url = (c.links.find? (goodLink c p)).map Link.href := by
  have hchar := pass1_ok_policies c (POLICY_ORDER c.mt) _ st' (order_nodup c.mt) h p
  rw [if_pos ⟨order_covers c.mt p hrel, hrel⟩] at hchar
  cases hf : c.links.find? (goodLink c p) with
  | some l =>
    rw [hf] at hchar
    refine ⟨⟨fun _ => ⟨l, List.mem_of_find?_eq_some hf, List.find?_some hf⟩, fun _ => ?_⟩, ?_⟩
    · rw [hchar]; rfl
    · rw [hchar]; rfl
  | none =>
    rw [hf] at hchar
    rw [hchar]
    constructor
    · constructor
      · intro hpres
        rw [show (initScan c.mt c.website c.prop).policies p = initPolicies c.mt p from rfl,
          initPolicies_present] at hpres
        cases hpres
      · rintro ⟨l, hmem, hgl⟩
        exact absurd hgl (List.find?_eq_none.mp hf l hmem)
    · show (initPolicies c.mt p).url = none
      exact initPolicies_url c.mt p

/-- Claim C1 witness: the amended statement instantiated on the
two-privacy-link site. -/
theorem claim1_witness :
    pass1 cTwoPrivacy (POLICY_ORDER cTwoPrivacy.mt)
      (initScan cTwoPrivacy.mt cTwoPrivacy.website cTwoPrivacy.prop) =
        .ok pass1TwoPrivacySt ∧
    isPolicyRelevant .privacy cTwoPrivacy.mt = true ∧
    (((pass1TwoPrivacySt.policies .privacy).present = true ↔
       ∃ l ∈ cTwoPrivacy.links, goodLink cTwoPrivacy .privacy l = true) ∧
     (pass1TwoPrivacySt.policies .privacy).url =
       (cTwoPrivacy.links.find? (goodLink cTwoPrivacy .privacy)).map Link.href) := by
  exact ⟨rfl, by decide, claim1_theorem cTwoPrivacy pass1TwoPrivacySt rfl .privacy (by decide)⟩

theorem list_all_congr {α : Type} {l : List α} {f g : α → Bool}
    (h : ∀ x ∈ l, f x = g x) : l.all f = l.all g := by
  induction l with
  | nil => rfl
  | cons a as ih =>
    rw [List.all_cons, List.all_cons, h a (List.mem_cons_self a as),
      ih (fun x hx => h x (List.mem_cons_of_mem a hx))]

theorem invpol_set (mt : MerchantType) (pols : PolicyKind → PolicyOutcome)
    (p : PolicyKind) (v : PolicyOutcome)
    (hrel : isPolicyRelevant p mt = true) (hv : v.status ≠ PStatus.NOT_RELEVANT)
    (h : InvPol mt pols) : InvPol mt (setPolicy pols p v) := by
  intro q
  by_cases hq : q = p
  · subst hq
    rw [setPolicy_same]
    constructor
    · intro hs; exact absurd hs hv
    · intro hr; rw [hr] at hrel; exact Bool.noConfusion hrel
  · rw [setPolicy_other _ _ _ _ hq]
    exact h q

theorem legalProbe_carried_policies (c : Ctx) (t u : String) (st : ScanState) :
    (carriedState (legalProbe c t u st)).policies = st.policies := by
  unfold legalProbe
  by_cases hg : c.prop = true ∧ st.legalNamePresent = .absent ∧ c.legalName ≠ ""
  · rw [if_pos hg]
    cases containsLegalName t c.legalName with
    | error m => rfl
    | ok b => cases b <;> rfl
  · rw [if_neg hg]; rfl

theorem scanLinks_invpol (c : Ctx) (p : PolicyKind)
    (hrel : isPolicyRelevant p c.mt = true) :
    ∀ (ls : List Link) (st : ScanState),
    InvPol c.mt st.policies →
    InvPol c.mt (carriedState (scanLinks c p ls st)).policies := by
  intro ls
  induction ls with
  | nil => intro st h; exact h
  | cons l rest ih =>
    intro st h
    simp only [scanLinks]
    by_cases h1 : l.href = "" ∨ l.text = ""
    · rw [if_pos h1]; exact ih st h
    · rw [if_neg h1]
      by_cases h2 : containsAny l.text (anchorHints p) = false
      · rw [if_pos h2]; exact ih st h
      · rw [if_neg h2]
        by_cases h3 : c.site.goto l.href = false
        · rw [if_pos h3]; exact ih st h
        · rw [if_neg h3]
          by_cases h4 : containsAny (normalize (c.site.body l.href)) (pageKeywords p) = true
          · rw [if_pos h4]
            have hset : InvPol c.mt (setPolicy st.policies p (foundOutcome c l)) :=
              invpol_set c.mt st.policies p _ hrel (by simp [foundOutcome]) h
            have hcp := legalProbe_carried_policies c (normalize (c.site.body l.href)) l.href
              { st with
                cur := l.href
                visitedPages :=
                  st.visitedPages ++ [⟨l.href, normalize (c.site.body l.href), p⟩]
                policies := setPolicy st.policies p (foundOutcome c l) }
            cases hlp : legalProbe c (normalize (c.site.body l.href)) l.href
                { st with
                  cur := l.href
                  visitedPages :=
                    st.visitedPages ++ [⟨l.href, normalize (c.site.body l.href), p⟩]
                  policies := setPolicy st.policies p (foundOutcome c l) } with
            | error e =>
              rw [hlp] at hcp
              show InvPol c.mt (carriedState (Except.error e)).policies
              rw [show (carriedState (Except.error e)).policies = e.2.policies from rfl]
              rw [show (carriedState (Except.error e)).policies = e.2.policies from rfl] at hcp
              rw [hcp]
              exact hset
            | ok st4 =>
              rw [hlp] at hcp
              rw [show (carriedState (Except.ok st4)).policies = st4.policies from rfl] at hcp
              show InvPol c.mt (carriedState (Except.ok
                (if c.site.goto c.website = true then { st4 with cur := c.website }
                 else st4))).policies
              by_cases hw : c.site.goto c.website = true
              · rw [if_pos hw]
                show InvPol c.mt st4.policies
                rw [hcp]
                exact hset
              · rw [if_neg hw]
                show InvPol c.mt st4.policies
                rw [hcp]
                exact hset
          · rw [if_neg h4]
            exact ih
              { st with
                cur := l.href
                visitedPages :=
                  st.visitedPages ++ [⟨l.href, normalize (c.site.body l.href), p⟩] } h

theorem pass1_invpol (c : Ctx) :
    ∀ (ord : List PolicyKind) (st : ScanState),
    InvPol c.mt st.policies →
    InvPol c.mt (carriedState (pass1 c ord st)).policies := by
  intro ord
  induction ord with
  | nil => intro st h; exact h
  | cons q qs ih =>
    intro st h
    simp only [pass1]
    by_cases hrel : isPolicyRelevant q c.mt = false
    · rw [if_pos hrel]; exact ih st h
    · rw [if_neg hrel]
      simp only [Bool.not_eq_false] at hrel
      cases hsc : scanLinks c q c.links st with
      | error e =>
        have h2 := scanLinks_invpol c q hrel c.links st h
        rw [hsc] at h2
        exact h2
      | ok st1 =>
        have h2 := scanLinks_invpol c q hrel c.links st h
        rw [hsc] at h2
        exact ih st1 h2

theorem pass2Sources_invpol (mt : MerchantType) (prop : Bool) (ln : String) (p : PolicyKind)
    (hrel : isPolicyRelevant p mt = true) :
    ∀ (srcs : List PolicyOutcome) (st : ScanState),
    InvPol mt st.policies →
    InvPol mt (carriedState (pass2Sources mt prop ln p srcs st)).policies := by
  intro srcs
  induction srcs with
  | nil => intro st h; exact h
  | cons src rest ih =>
    intro st h
    simp only [pass2Sources]
    by_cases h1 : containsAny (src.pageTextC.getD "") (pageKeywords p) = true
    · rw [if_pos h1]
      have hset : InvPol mt (setPolicy st.policies p (groupFound src)) :=
        invpol_set mt st.policies p _ hrel (by simp [groupFound]) h
      by_cases h2 : prop = true ∧ st.legalNamePresent = .absent ∧ ln ≠ ""
      · rw [if_pos h2]
        cases containsLegalName (src.pageTextC.getD "") ln with
        | error m => exact hset
        | ok b => cases b <;> exact hset
      · rw [if_neg h2]
        exact hset
    · rw [if_neg h1]
      exact ih st h

theorem pass2Group_invpol (mt : MerchantType) (prop : Bool) (ln : String)
    (srcs : List PolicyOutcome) :
    ∀ (grp : List PolicyKind) (st : ScanState),
    InvPol mt st.policies →
    InvPol mt (carriedState (pass2Group mt prop ln srcs grp st)).policies := by
  intro grp
  induction grp with
  | nil => intro st h; exact h
  | cons p ps ih =>
    intro st h
    simp only [pass2Group]
    by_cases h1 : isPolicyRelevant p mt = false ∨ (st.policies p).present = true
    · rw [if_pos h1]; exact ih st h
    · rw [if_neg h1]
      push_neg at h1
      have hrel : isPolicyRelevant p mt = true := by
        have := h1.1
        revert this
        cases isPolicyRelevant p mt <;> simp
      cases hps : pass2Sources mt prop ln p srcs st with
      | error e =>
        have h2 := pass2Sources_invpol mt prop ln p hrel srcs st h
        rw [hps] at h2
        exact h2
      | ok st1 =>
        have h2 := pass2Sources_invpol mt prop ln p hrel srcs st h
        rw [hps] at h2
        exact ih st1 h2

theorem pass2Outer_invpol (mt : MerchantType) (prop : Bool) (ln : String) :
    ∀ (fuel : Nat) (st : ScanState),
    InvPol mt st.policies →
    InvPol mt (carriedState (pass2Outer mt prop ln fuel st)).policies := by
  intro fuel
  induction fuel with
  | zero => intro st h; exact h
  | succ n ih =>
    intro st h
    simp only [pass2Outer]
    by_cases h1 : presentSources mt st = []
    · rw [if_pos h1]; exact h
    · rw [if_neg h1]
      cases hpg : pass2Group mt prop ln (presentSources mt st) (RESOLVABLE_GROUP mt) st with
      | error e =>
        have h2 := pass2Group_invpol mt prop ln (presentSources mt st) (RESOLVABLE_GROUP mt) st h
        rw [hpg] at h2
        exact h2
      | ok st1 =>
        have h2 := pass2Group_invpol mt prop ln (presentSources mt st) (RESOLVABLE_GROUP mt) st h
        rw [hpg] at h2
        exact ih st1 h2

theorem pass3_policies (c : Ctx) (st : ScanState) :
    (carriedState (pass3 c st)).policies = st.policies := by
  unfold pass3
  by_cases h1 : c.prop = true ∧ st.legalNamePresent = .present ∧ st.legalNameURL.getD "" ≠ ""
  · rw [if_pos h1]
    by_cases h2 : c.site.goto (st.legalNameURL.getD "") = true
    · rw [if_pos h2]
      cases containsLegalName (normalize (c.site.body (st.legalNameURL.getD ""))) c.legalName with
      | error m => rfl
      | ok b => cases b <;> rfl
    · rw [if_neg h2]; rfl
  · rw [if_neg h1]; rfl

theorem pass4Visited_policies (c : Ctx) :
    ∀ (vs : List VisitedPage) (st : ScanState),
    (carriedState (pass4Visited c vs st)).policies = st.policies := by
  intro vs
  induction vs with
  | nil => intro st; rfl
  | cons v rest ih =>
    intro st
    simp only [pass4Visited]
    cases containsLegalName v.pageTextC c.legalName with
    | error m => rfl
    | ok b =>
      cases b
      · exact ih st
      · rfl

theorem pass4Home_policies (c : Ctx) (st : ScanState) :
    (carriedState (pass4Home c st)).policies = st.policies := by
  unfold pass4Home
  by_cases h1 : st.legalNamePresent = .absent
  · rw [if_pos h1]
    by_cases h2 : c.site.goto c.website = true
    · rw [if_pos h2]
      cases containsLegalName (normalize (c.site.body c.website)) c.legalName with
      | error m => rfl
      | ok b => cases b <;> rfl
    · rw [if_neg h2]
      cases containsLegalName (normalize (c.site.body st.cur)) c.legalName with
      | error m => rfl
      | ok b => cases b <;> rfl
  · rw [if_neg h1]; rfl

theorem pass4TryLinks_policies (c : Ctx) :
    ∀ (ls : List Link) (st : ScanState),
    (carriedState (pass4TryLinks c ls st)).policies = st.policies := by
  intro ls
  induction ls with
  | nil => intro st; rfl
  | cons l rest ih =>
    intro st
    simp only [pass4TryLinks]
    by_cases h1 : c.site.goto l.href = false
    · rw [if_pos h1]; exact ih st
    · rw [if_neg h1]
      cases containsLegalName (normalize (c.site.body l.href)) c.legalName with
      | error m => rfl
      | ok b =>
        cases b
        · by_cases h2 : st.legalNamePresent = .present
          · rw [if_pos h2]; rfl
          · rw [if_neg h2]
            exact ih { st with
              cur := if c.site.goto c.website = true then c.website else l.href }
        · rfl

theorem pass4Cats_policies (c : Ctx) :
    ∀ (cats : List String) (st : ScanState),
    (carriedState (pass4Cats c cats st)).policies = st.policies := by
  intro cats
  induction cats with
  | nil => intro st; rfl
  | cons cat rest ih =>
    intro st
    simp only [pass4Cats]
    have htl := pass4TryLinks_policies c
      ((c.links.filter (fun l => strContains l.text cat && (l.href ≠ "" : Bool))).take 2) st
    cases htry : pass4TryLinks c
        ((c.links.filter (fun l => strContains l.text cat && (l.href ≠ "" : Bool))).take 2)
        st with
    | error e =>
      rw [htry] at htl
      exact htl
    | ok st1 =>
      rw [htry] at htl
      show (carriedState (if st1.legalNamePresent = .present then Except.ok st1
        else pass4Cats c rest st1)).policies = st.policies
      by_cases h2 : st1.legalNamePresent = .present
      · rw [if_pos h2]; exact htl
      · rw [if_neg h2]
        rw [ih st1]
        exact htl

theorem pass4_policies (c : Ctx) (st : ScanState) :
    (carriedState (pass4 c st)).policies = st.policies := by
  unfold pass4
  by_cases h1 : c.prop = true ∧ st.legalNamePresent = .absent ∧ c.legalName ≠ ""
  · rw [if_pos h1]
    have hv := pass4Visited_policies c st.visitedPages st
    cases h2 : pass4Visited c st.visitedPages st with
    | error e =>
      rw [h2] at hv
      exact hv
    | ok s1 =>
      rw [h2] at hv
      show (carriedState (match pass4Home c s1 with
        | Except.error e => Except.error e
        | Except.ok s2 =>
          if s2.legalNamePresent = LegalNameState.absent then pass4Cats c otherPages s2
          else Except.ok s2)).policies = st.policies
      have hh := pass4Home_policies c s1
      cases h3 : pass4Home c s1 with
      | error e =>
        rw [h3] at hh
        show e.2.policies = st.policies
        rw [show (carriedState (Except.error e)).policies = e.2.policies from rfl] at hh
        rw [hh]
        exact hv
      | ok s2 =>
        rw [h3] at hh
        rw [show (carriedState (Except.ok s2)).policies = s2.policies from rfl] at hh
        show (carriedState (if s2.legalNamePresent = LegalNameState.absent
          then pass4Cats c otherPages s2 else Except.ok s2)).policies = st.policies
        by_cases h4 : s2.legalNamePresent = LegalNameState.absent
        · rw [if_pos h4, pass4Cats_policies c otherPages s2, hh]
          exact hv
        · rw [if_neg h4]
          show s2.policies = st.policies
          rw [hh]
          exact hv
  · rw [if_neg h1]
    rfl

theorem auditPasses_invpol (c : Ctx) (st : ScanState) (h : InvPol c.mt st.policies) :
    InvPol c.mt (carriedState (auditPasses c st)).policies := by
  unfold auditPasses
  cases h1 : pass1 c (POLICY_ORDER c.mt) st with
  | error e =>
    have h2 := pass1_invpol c (POLICY_ORDER c.mt) st h
    rw [h1] at h2
    exact h2
  | ok s1 =>
    have hs1 : InvPol c.mt s1.policies := by
      have h2 := pass1_invpol c (POLICY_ORDER c.mt) st h
      rw [h1] at h2
      exact h2
    show InvPol c.mt (carriedState (match pass2 c s1 with
      | Except.error e => Except.error e
      | Except.ok s2 =>
        match pass3 c s2 with
        | Except.error e => Except.error e
        | Except.ok s3 => pass4 c s3)).policies
    cases h2 : pass2 c s1 with
    | error e =>
      have h3 := pass2Outer_invpol c.mt c.prop c.legalName (RESOLVABLE_GROUP c.mt).length s1 hs1
      rw [show pass2 c s1 = pass2Outer c.mt c.prop c.legalName
        (RESOLVABLE_GROUP c.mt).length s1 from rfl] at h2
      rw [h2] at h3
      exact h3
    | ok s2 =>
      have hs2 : InvPol c.mt s2.policies := by
        have h3 := pass2Outer_invpol c.mt c.prop c.legalName (RESOLVABLE_GROUP c.mt).length s1 hs1
        rw [show pass2 c s1 = pass2Outer c.mt c.prop c.legalName
          (RESOLVABLE_GROUP c.mt).length s1 from rfl] at h2
        rw [h2] at h3
        exact h3
      show InvPol c.mt (carriedState (match pass3 c s2 with
        | Except.error e => Except.error e
        | Except.ok s3 => pass4 c s3)).policies
      cases h3 : pass3 c s2 with
      | error e =>
        have h4 := pass3_policies c s2
        rw [h3] at h4
        show InvPol c.mt e.2.policies
        rw [show (carriedState (Except.error e)).policies = e.2.policies from rfl] at h4
        rw [h4]
        exact hs2
      | ok s3 =>
        have hs3 : InvPol c.mt s3.policies := by
          have h4 := pass3_policies c s2
          rw [h3] at h4
          rw [show (carriedState (Except.ok s3)).policies = s3.policies from rfl] at h4
          intro p
          rw [h4]
          exact hs2 p
        show InvPol c.mt (carriedState (pass4 c s3)).policies
        have h5 := pass4_policies c s3
        intro p
        rw [h5]
        exact hs3 p

theorem finalOutcomeUpdate_status (o : PolicyOutcome) :
    (finalOutcomeUpdate o).status =
      if o.present = false then PStatus.MISSING else o.status := by
  by_cases h : o.present = false <;> simp [finalOutcomeUpdate, h]

theorem finalLoop_fst_invpol (mt : MerchantType) :
    ∀ (ord : List PolicyKind) (pols : PolicyKind → PolicyOutcome),
    InvPol mt pols → InvPol mt (finalLoop mt ord pols).1 := by
  intro ord
  induction ord with
  | nil => intro pols h; exact h
  | cons p ps ih =>
    intro pols h
    rw [finalLoop]
    by_cases hrel : isPolicyRelevant p mt = true
    · rw [if_pos hrel]
      show InvPol mt (finalLoop mt ps (setPolicy pols p (finalOutcomeUpdate (pols p)))).1
      apply ih
      apply invpol_set mt pols p _ hrel ?_ h
      rw [finalOutcomeUpdate_status]
      by_cases hpres : (pols p).present = false
      · rw [if_pos hpres]
        intro hs
        exact PStatus.noConfusion hs
      · rw [if_neg hpres]
        intro hs
        have h2 := (h p).mp hs
        rw [hrel] at h2
        exact Bool.noConfusion h2
    · rw [if_neg hrel]
      exact ih pols h

theorem finalVerdict_congr (mt : MerchantType) (prop : Bool) (st st' : ScanState)
    (hpol : ∀ p, isPolicyRelevant p mt = true → st.policies p = st'.policies p)
    (hlnp : st.legalNamePresent = st'.legalNamePresent) :
    finalVerdict mt prop st = finalVerdict mt prop st' := by
  unfold finalVerdict
  rw [hlnp]
  have hall : (POLICY_ORDER mt).all (fun p => !isPolicyRelevant p mt ||
      ((finalLoop mt (POLICY_ORDER mt) st.policies).1 p).present) =
    (POLICY_ORDER mt).all (fun p => !isPolicyRelevant p mt ||
      ((finalLoop mt (POLICY_ORDER mt) st'.policies).1 p).present) := by
    apply list_all_congr
    intro p _
    by_cases hrel : isPolicyRelevant p mt = true
    · rw [finalLoop_fst_present, finalLoop_fst_present, hpol p hrel]
    · simp only [Bool.not_eq_true] at hrel
      rw [hrel]
      rfl
  rw [hall]

/-- Claim C3: the relevance invariant holds of the initial policy map, is
preserved by the four passes (also across a raised exception) and by the
final evaluation, hence holds of every audit result; NOT RELEVANT kinds are
never in the missing list, and the verdict only depends on the relevant
outcomes and the legal-name state. -/
theorem claim3_theorem :
    (∀ mt : MerchantType, InvPol mt (initPolicies mt)) ∧
    (∀ (c : Ctx) (st : ScanState), InvPol c.mt st.policies →
       InvPol c.mt (carriedState (auditPasses c st)).policies) ∧
    (∀ (mt : MerchantType) (pols : PolicyKind → PolicyOutcome), InvPol mt pols →
       InvPol mt (finalLoop mt (POLICY_ORDER mt) pols).1) ∧
    (∀ (site : Site) (w mti et ln : String) (p : PolicyKind),
       ((checkWebsite site w mti et ln).policies p).status = .NOT_RELEVANT ↔
         isPolicyRelevant p (determineMerchantType mti) = false) ∧
    (∀ (site : Site) (w mti et ln : String) (p : PolicyKind),
       isPolicyRelevant p (determineMerchantType mti) = false →
       MissingItem.pol p ∉ (checkWebsite site w mti et ln).missingPolicies) ∧
    (∀ (mt : MerchantType) (prop : Bool) (st st' : ScanState),
       (∀ p, isPolicyRelevant p mt = true → st.policies p = st'.policies p) →
       st.legalNamePresent = st'.legalNamePresent →
       finalVerdict mt prop st = finalVerdict mt prop st') := by
  refine ⟨invpol_init, auditPasses_invpol, fun mt pols h => finalLoop_fst_invpol mt _ pols h,
    ?_, ?_, finalVerdict_congr⟩
  · intro site w mti et ln p
    by_cases hg : site.goto w = false
    · rw [checkWebsite_down site w mti et ln hg]
      exact invpol_init (determineMerchantType mti) p
    · have hg' : site.goto w = true := by
        revert hg; cases site.goto w <;> simp
      cases hap : auditPasses (mkCtx site w mti et ln)
          (initScan (determineMerchantType mti) w (isProprietorship et)) with
      | error e =>
        rcases e with ⟨m, st⟩
        rw [checkWebsite_err site w mti et ln m st hg' hap]
        have h0 : InvPol (mkCtx site w mti et ln).mt
            (initScan (determineMerchantType mti) w (isProprietorship et)).policies :=
          invpol_init (determineMerchantType mti)
        have h2 := auditPasses_invpol (mkCtx site w mti et ln) _ h0
        rw [hap] at h2
        exact h2 p
      | ok st =>
        rw [checkWebsite_ok site w mti et ln st hg' hap]
        have h0 : InvPol (mkCtx site w mti et ln).mt
            (initScan (determineMerchantType mti) w (isProprietorship et)).policies :=
          invpol_init (determineMerchantType mti)
        have h2 := auditPasses_invpol (mkCtx site w mti et ln) _ h0
        rw [hap] at h2
        exact finalLoop_fst_invpol (determineMerchantType mti) (POLICY_ORDER _) st.policies h2 p
  · intro site w mti et ln p hirrel
    by_cases hg : site.goto w = false
    · rw [checkWebsite_down site w mti et ln hg]
      exact List.not_mem_nil _
    · have hg' : site.goto w = true := by
        revert hg; cases site.goto w <;> simp
      cases hap : auditPasses (mkCtx site w mti et ln)
          (initScan (determineMerchantType mti) w (isProprietorship et)) with
      | error e =>
        rcases e with ⟨m, st⟩
        rw [checkWebsite_err site w mti et ln m st hg' hap]
        exact List.not_mem_nil _
      | ok st =>
        rw [checkWebsite_ok site w mti et ln st hg' hap]
        intro hmem
        have hmem2 : MissingItem.pol p ∈
            finalMissing (determineMerchantType mti) (isProprietorship et) ln st := hmem
        unfold finalMissing at hmem2
        rcases List.mem_append.mp hmem2 with h | h
        · rcases finalLoop_mem _ _ _ _ h with ⟨q, hq, _, hqrel, _⟩
          injection hq with hq2
          rw [hq2, hqrel] at hirrel
          exact Bool.noConfusion hirrel
        · by_cases hcond : isProprietorship et = true ∧
              st.legalNamePresent = .absent ∧ ln ≠ ""
          · rw [if_pos hcond] at h
            have h2 := List.mem_singleton.mp h
            exact MissingItem.noConfusion h2
          · rw [if_neg hcond] at h
            cases h

/-- Claim C3 witness: instances of the invariant conjuncts on a services
merchant, where shipping is NOT RELEVANT. -/
theorem claim3_witness :
    InvPol .services (initPolicies .services) ∧
    InvPol (mkCtx siteEmpty "https://e" "services" "pvt" "").mt
      (carriedState (auditPasses (mkCtx siteEmpty "https://e" "services" "pvt" "") stServ)).policies ∧
    InvPol .services (finalLoop .services (POLICY_ORDER .services) stServ.policies).1 ∧
    (((checkWebsite siteEmpty "https://e" "services" "pvt" "").policies .shipping).status =
        .NOT_RELEVANT ↔
      isPolicyRelevant .shipping (determineMerchantType "services") = false) ∧
    MissingItem.pol .shipping ∉
      (checkWebsite siteEmpty "https://e" "services" "pvt" "").missingPolicies ∧
    finalVerdict .services true stServ = finalVerdict .services true stServAlt := by
  refine ⟨claim3_theorem.1 .services,
    claim3_theorem.2.1 (mkCtx siteEmpty "https://e" "services" "pvt" "") stServ
      (by unfold InvPol; decide),
    claim3_theorem.2.2.1 .services stServ.policies (by unfold InvPol; decide),
    claim3_theorem.2.2.2.1 siteEmpty "https://e" "services" "pvt" "" .shipping,
    claim3_theorem.2.2.2.2.1 siteEmpty "https://e" "services" "pvt" "" .shipping (by decide),
    claim3_theorem.2.2.2.2.2 .services true stServ stServAlt (by decide) (by decide)⟩


theorem legalProbe_empty (c : Ctx) (t u : String) (st : ScanState) (hln : c.legalName = "") :
    legalProbe c t u st = .ok st := by
  unfold legalProbe
  rw [if_neg]
  rintro ⟨_, _, hne⟩
  exact hne hln

theorem scanLinks_lnp_empty (c : Ctx) (p : PolicyKind) (hln : c.legalName = "") :
    ∀ (ls : List Link) (st : ScanState),
    (carriedState (scanLinks c p ls st)).legalNamePresent = st.legalNamePresent := by
  intro ls
  induction ls with
  | nil => intro st; rfl
  | cons l rest ih =>
    intro st
    simp only [scanLinks]
    by_cases h1 : l.href = "" ∨ l.text = ""
    · rw [if_pos h1]; exact ih st
    · rw [if_neg h1]
      by_cases h2 : containsAny l.text (anchorHints p) = false
      · rw [if_pos h2]; exact ih st
      · rw [if_neg h2]
        by_cases h3 : c.site.goto l.href = false
        · rw [if_pos h3]; exact ih st
        · rw [if_neg h3]
          by_cases h4 : containsAny (normalize (c.site.body l.href)) (pageKeywords p) = true
          · rw [if_pos h4]
            rw [legalProbe_empty c (normalize (c.site.body l.href)) l.href
              { st with
                cur := l.href
                visitedPages :=
                  st.visitedPages ++ [⟨l.href, normalize (c.site.body l.href), p⟩]
                policies := setPolicy st.policies p (foundOutcome c l) } hln]
            show (if c.site.goto c.website = true
                then ({ ({ st with
                    cur := l.href
                    visitedPages := st.visitedPages ++
                      [{ url := l.href, pageTextC := normalize (c.site.body l.href),
                         policyType := p }]
                    policies := setPolicy st.policies p (foundOutcome c l) } : ScanState) with
                    cur := c.website } : ScanState)
                else ({ st with
                    cur := l.href
                    visitedPages := st.visitedPages ++
                      [{ url := l.href, pageTextC := normalize (c.site.body l.href),
                         policyType := p }]
                    policies :=
                      setPolicy st.policies p (foundOutcome c l) } : ScanState)).legalNamePresent =
              st.legalNamePresent
            by_cases hw : c.site.goto c.website = true
            · rw [if_pos hw]
            · rw [if_neg hw]
          · rw [if_neg h4]
            exact ih
              { st with
                cur := l.href
                visitedPages :=
                  st.visitedPages ++ [⟨l.href, normalize (c.site.body l.href), p⟩] }

theorem pass1_lnp_empty (c : Ctx) (hln : c.legalName = "") :
    ∀ (ord : List PolicyKind) (st : ScanState),
    (carriedState (pass1 c ord st)).legalNamePresent = st.legalNamePresent := by
  intro ord
  induction ord with
  | nil => intro st; rfl
  | cons q qs ih =>
    intro st
    simp only [pass1]
    by_cases hrel : isPolicyRelevant q c.mt = false
    · rw [if_pos hrel]; exact ih st
    · rw [if_neg hrel]
      have hsl := scanLinks_lnp_empty c q hln c.links st
      cases hsc : scanLinks c q c.links st with
      | error e =>
        rw [hsc] at hsl
        exact hsl
      | ok st1 =>
        rw [hsc] at hsl
        rw [ih st1]
        exact hsl

theorem pass2Sources_lnp_empty (mt : MerchantType) (prop : Bool) (p : PolicyKind) :
    ∀ (srcs : List PolicyOutcome) (st : ScanState),
    (carriedState (pass2Sources mt prop "" p srcs st)).legalNamePresent =
      st.legalNamePresent := by
  intro srcs
  induction srcs with
  | nil => intro st; rfl
  | cons src rest ih =>
    intro st
    simp only [pass2Sources]
    by_cases h1 : containsAny (src.pageTextC.getD "") (pageKeywords p) = true
    · rw [if_pos h1]
      rw [if_neg]
      · rfl
      · rintro ⟨_, _, hne⟩
        exact hne rfl
    · rw [if_neg h1]
      exact ih st

theorem pass2Group_lnp_empty (mt : MerchantType) (prop : Bool)
    (srcs : List PolicyOutcome) :
    ∀ (grp : List PolicyKind) (st : ScanState),
    (carriedState (pass2Group mt prop "" srcs grp st)).legalNamePresent =
      st.legalNamePresent := by
  intro grp
  induction grp with
  | nil => intro st; rfl
  | cons p ps ih =>
    intro st
    simp only [pass2Group]
    by_cases h1 : isPolicyRelevant p mt = false ∨ (st.policies p).present = true
    · rw [if_pos h1]; exact ih st
    · rw [if_neg h1]
      have hps2 := pass2Sources_lnp_empty mt prop p srcs st
      cases hps : pass2Sources mt prop "" p srcs st with
      | error e =>
        rw [hps] at hps2
        exact hps2
      | ok st1 =>
        rw [hps] at hps2
        rw [ih st1]
        exact hps2

theorem pass2Outer_lnp_empty (mt : MerchantType) (prop : Bool) :
    ∀ (fuel : Nat) (st : ScanState),
    (carriedState (pass2Outer mt prop "" fuel st)).legalNamePresent =
      st.legalNamePresent := by
  intro fuel
  induction fuel with
  | zero => intro st; rfl
  | succ n ih =>
    intro st
    simp only [pass2Outer]
    by_cases h1 : presentSources mt st = []
    · rw [if_pos h1]; rfl
    · rw [if_neg h1]
      have hpg2 := pass2Group_lnp_empty mt prop (presentSources mt st) (RESOLVABLE_GROUP mt) st
      cases hpg : pass2Group mt prop "" (presentSources mt st) (RESOLVABLE_GROUP mt) st with
      | error e =>
        rw [hpg] at hpg2
        exact hpg2
      | ok st1 =>
        rw [hpg] at hpg2
        rw [ih st1]
        exact hpg2

theorem pass3_not_present (c : Ctx) (st : ScanState)
    (h : st.legalNamePresent ≠ .present) : pass3 c st = .ok st := by
  unfold pass3
  rw [if_neg]
  rintro ⟨_, h2, _⟩
  exact h h2

theorem pass4_ln_empty (c : Ctx) (st : ScanState) (hln : c.legalName = "") :
    pass4 c st = .ok st := by
  unfold pass4
  rw [if_neg]
  rintro ⟨_, _, hne⟩
  exact hne hln

theorem auditPasses_lnp_empty (c : Ctx) (st : ScanState) (hln : c.legalName = "")
    (hlnp : st.legalNamePresent ≠ .present) :
    (carriedState (auditPasses c st)).legalNamePresent = st.legalNamePresent := by
  unfold auditPasses
  have hp1 := pass1_lnp_empty c hln (POLICY_ORDER c.mt) st
  cases h1 : pass1 c (POLICY_ORDER c.mt) st with
  | error e =>
    rw [h1] at hp1
    exact hp1
  | ok s1 =>
    rw [h1] at hp1
    show (carriedState (match pass2 c s1 with
      | Except.error e => Except.error e
      | Except.ok s2 =>
        match pass3 c s2 with
        | Except.error e => Except.error e
        | Except.ok s3 => pass4 c s3)).legalNamePresent = st.legalNamePresent
    have hp2 := pass2Outer_lnp_empty c.mt c.prop (RESOLVABLE_GROUP c.mt).length s1
    have hpass2 : pass2 c s1 = pass2Outer c.mt c.prop "" (RESOLVABLE_GROUP c.mt).length s1 := by
      rw [show pass2 c s1 = pass2Outer c.mt c.prop c.legalName
        (RESOLVABLE_GROUP c.mt).length s1 from rfl, hln]
    rw [hpass2]
    cases h2 : pass2Outer c.mt c.prop "" (RESOLVABLE_GROUP c.mt).length s1 with
    | error e =>
      rw [h2] at hp2
      rw [hp2]
      exact hp1
    | ok s2 =>
      rw [h2] at hp2
      show (carriedState (match pass3 c s2 with
        | Except.error e => Except.error e
        | Except.ok s3 => pass4 c s3)).legalNamePresent = st.legalNamePresent
      have hs2 : s2.legalNamePresent = st.legalNamePresent := by
        rw [show (carriedState (Except.ok s2)).legalNamePresent = s2.legalNamePresent
          from rfl] at hp2
        rw [hp2]
        exact hp1
      have hne2 : s2.legalNamePresent ≠ .present := by
        rw [hs2]
        exact hlnp
      rw [pass3_not_present c s2 hne2]
      show (carriedState (pass4 c s2)).legalNamePresent = st.legalNamePresent
      rw [pass4_ln_empty c s2 hln]
      exact hs2


/-- Claim C8: a proprietorship merchant with an empty supplied legal name
always fails, yet the literal legal-name item is never appended, so such a
merchant can fail with an empty missing list even when every relevant
policy is found. -/
theorem claim8_theorem (site : Site) (w mti et : String) (r : Result)
    (hprop : isProprietorship et = true) (hr : r = checkWebsite site w mti et "") :
    r.complianceStatus = .FAIL ∧ MissingItem.legalNameItem ∉ r.missingPolicies := by
  subst hr
  by_cases hg : site.goto w = false
  · rw [checkWebsite_down site w mti et "" hg]
    exact ⟨rfl, List.not_mem_nil _⟩
  · have hg2 : site.goto w = true := by
      revert hg; cases site.goto w <;> simp
    cases hap : auditPasses (mkCtx site w mti et "")
        (initScan (determineMerchantType mti) w (isProprietorship et)) with
    | error e =>
      rcases e with ⟨m, st⟩
      rw [checkWebsite_err site w mti et "" m st hg2 hap]
      exact ⟨rfl, List.not_mem_nil _⟩
    | ok st =>
      rw [checkWebsite_ok site w mti et "" st hg2 hap]
      have hinit : (initScan (determineMerchantType mti) w
          (isProprietorship et)).legalNamePresent = .absent := by
        show (if isProprietorship et then LegalNameState.absent else .notRelevant) = .absent
        rw [if_pos hprop]
      have hinitne : (initScan (determineMerchantType mti) w
          (isProprietorship et)).legalNamePresent ≠ .present := by
        rw [hinit]
        intro hc
        exact LegalNameState.noConfusion hc
      have h0 := auditPasses_lnp_empty (mkCtx site w mti et "")
        (initScan (determineMerchantType mti) w (isProprietorship et)) rfl hinitne
      rw [hap] at h0
      have hlnp : st.legalNamePresent = .absent := by
        rw [show (carriedState (Except.ok st)).legalNamePresent = st.legalNamePresent
          from rfl] at h0
        rw [h0]
        exact hinit
      constructor
      · show finalVerdict (determineMerchantType mti) (isProprietorship et) st = .FAIL
        unfold finalVerdict
        rw [if_neg]
        intro hcond
        simp only [Bool.and_eq_true, Bool.or_eq_true, Bool.not_eq_true',
          decide_eq_true_eq] at hcond
        rcases hcond.2 with h | h
        · rw [hprop] at h
          exact Bool.noConfusion h
        · rw [hlnp] at h
          exact LegalNameState.noConfusion h
      · show MissingItem.legalNameItem ∉
          finalMissing (determineMerchantType mti) (isProprietorship et) "" st
        unfold finalMissing
        intro hmem
        rcases List.mem_append.mp hmem with h | h
        · rcases finalLoop_mem _ _ _ _ h with ⟨q, hq, _, _, _⟩
          exact MissingItem.noConfusion hq
        · rw [if_neg (by rintro ⟨_, _, hne⟩; exact hne rfl)] at h
          cases h

/-- Claim C8 witness: a proprietorship services merchant on a site offering
all four relevant policies, with an empty legal name: verdict FAIL, missing
list empty, every relevant policy present. -/
theorem claim8_witness :
    isProprietorship "proprietor" = true ∧
    (checkWebsite siteAllFour "https://m" "services" "proprietor" "").complianceStatus =
      .FAIL ∧
    MissingItem.legalNameItem ∉
      (checkWebsite siteAllFour "https://m" "services" "proprietor" "").missingPolicies ∧
    (checkWebsite siteAllFour "https://m" "services" "proprietor" "").missingPolicies = [] ∧
    ((checkWebsite siteAllFour "https://m" "services" "proprietor" "").policies
      .privacy).present = true ∧
    ((checkWebsite siteAllFour "https://m" "services" "proprietor" "").policies
      .terms).present = true ∧
    ((checkWebsite siteAllFour "https://m" "services" "proprietor" "").policies
      .refund).present = true ∧
    ((checkWebsite siteAllFour "https://m" "services" "proprietor" "").policies
      .cancellation).present = true := by
  have h := claim8_theorem siteAllFour "https://m" "services" "proprietor"
    (checkWebsite siteAllFour "https://m" "services" "proprietor" "") (by decide) rfl
  exact ⟨by decide, h.1, h.2, by decide, by decide, by decide, by decide, by decide⟩


theorem toLower_of_space {c : Char} (h : jsIsSpace c = true) : Char.toLower c = c := by
  unfold jsIsSpace at h
  rw [Bool.or_eq_true, Bool.or_eq_true, Bool.or_eq_true, Bool.or_eq_true, Bool.or_eq_true,
    Bool.or_eq_true] at h
  rcases h with ((((((h1 | h1) | h1) | h1) | h1) | h1) | h1) <;>
    (rw [eq_of_beq h1]; decide)

theorem splitWsAux_all_space :
    ∀ (l : List Char), (∀ c ∈ l, jsIsSpace c = true) → splitWsAux l [] = [] := by
  intro l
  induction l with
  | nil => intro _; rfl
  | cons c cs ih =>
    intro h
    rw [splitWsAux]
    rw [if_pos (h c (List.mem_cons_self c cs))]
    rw [if_pos rfl]
    exact ih (fun d hd => h d (List.mem_cons_of_mem c hd))

theorem jsTrim_nil_all_space {l : List Char} (h : jsTrim l = []) :
    ∀ c ∈ l, jsIsSpace c = true := by
  unfold jsTrim at h
  have h1 : (l.dropWhile jsIsSpace).reverse.dropWhile jsIsSpace = [] :=
    List.reverse_eq_nil_iff.mp h
  have h2 : ∀ c ∈ (l.dropWhile jsIsSpace).reverse, jsIsSpace c = true :=
    List.dropWhile_eq_nil_iff.mp h1
  have h3 : ∀ c ∈ l.dropWhile jsIsSpace, jsIsSpace c = true := by
    intro c hc
    exact h2 c (List.mem_reverse.mpr hc)
  intro c hc
  rw [← List.takeWhile_append_dropWhile jsIsSpace l] at hc
  rcases List.mem_append.mp hc with hc | hc
  · exact List.mem_takeWhile_imp hc
  · exact h3 c hc

theorem normalizeL_all_space {l : List Char} (h : ∀ c ∈ l, jsIsSpace c = true) :
    normalizeL l = [] := by
  have hs : splitWs (l.map Char.toLower) = [] := by
    apply splitWsAux_all_space
    intro c hc
    rcases List.mem_map.mp hc with ⟨d, hd, hdc⟩
    rw [← hdc, toLower_of_space (h d hd)]
    exact h d hd
  unfold normalizeL
  rw [hs]
  rfl

theorem cleanedName_ne_of_parts {legalName : String}
    (hparts : 2 ≤ (significantParts legalName).length) :
    ¬(cleanedName legalName = []) := by
  intro hc
  rw [significantParts, exactParts, hc] at hparts
  simp [splitWs, splitWsAux] at hparts

theorem trim_ne_of_parts {legalName : String}
    (hparts : 2 ≤ (significantParts legalName).length) :
    ¬(jsTrim legalName.toList = []) := by
  intro ht
  apply cleanedName_ne_of_parts hparts
  unfold cleanedName
  rw [normalizeL_all_space (jsTrim_nil_all_space ht)]
  rfl

theorem scanWordAux_single {p : List Char} :
    ∀ (tl : List Char) (prevW : Bool), scanWordAux [p] tl prevW = true →
    ∃ i, p.isPrefixOf (tl.drop i) = true := by
  intro tl
  induction tl with
  | nil =>
    intro prevW h
    rw [scanWordAux] at h
    cases h
  | cons c rest ih =>
    intro prevW h
    rw [scanWordAux, Bool.or_eq_true] at h
    rcases h with h1 | h1
    · by_cases hp : p.isPrefixOf (c :: rest) = true
      · exact ⟨0, hp⟩
      · rw [Bool.and_eq_true] at h1
        have h2 := h1.2
        rw [show matchPartsHere [p] (c :: rest) = none from by
          unfold matchPartsHere matchHere
          rw [if_neg hp]] at h2
        cases h2
    · rcases ih (isWordChar c) h1 with ⟨i, hi⟩
      exact ⟨i + 1, hi⟩

theorem wordTest_indexOf_isSome {tl p : List Char} (hne : p ≠ [])
    (h : wordPatternTest tl [p] = true) : (jsIndexOf tl p).isSome = true := by
  rcases scanWordAux_single tl false h with ⟨i, hi⟩
  have hile : i ≤ tl.length := by
    by_contra hgt
    push_neg at hgt
    rw [List.drop_eq_nil_of_le (le_of_lt hgt)] at hi
    exact hne (List.prefix_nil.mp (List.isPrefixOf_iff_prefix.mp hi))
  unfold jsIndexOf
  rw [List.find?_isSome]
  exact ⟨i, List.mem_range.mpr (Nat.lt_succ_of_le hile), hi⟩

theorem wordTest_lastIndexOf_isSome {tl p : List Char} (hne : p ≠ [])
    (h : wordPatternTest tl [p] = true) : (jsLastIndexOf tl p).isSome = true := by
  rcases scanWordAux_single tl false h with ⟨i, hi⟩
  have hile : i ≤ tl.length := by
    by_contra hgt
    push_neg at hgt
    rw [List.drop_eq_nil_of_le (le_of_lt hgt)] at hi
    exact hne (List.prefix_nil.mp (List.isPrefixOf_iff_prefix.mp hi))
  unfold jsLastIndexOf
  rw [List.find?_isSome]
  exact ⟨i, List.mem_reverse.mpr (List.mem_range.mpr (Nat.lt_succ_of_le hile)), hi⟩

theorem headD_mem {α : Type} {l : List α} (d : α) (h : l ≠ []) : l.headD d ∈ l := by
  cases l with
  | nil => exact absurd rfl h
  | cons a as => exact List.mem_cons_self a as

theorem getLastD_mem {α : Type} {l : List α} (d : α) (h : l ≠ []) : l.getLastD d ∈ l := by
  cases l with
  | nil => exact absurd rfl h
  | cons a as =>
    rw [List.getLastD_eq_getLast?]
    rw [List.getLast?_eq_getLast (a :: as) (by intro hc; cases hc)]
    exact List.getLast_mem _

/-- Claim C4: under the proximity strategy (conditions of the claim, within
the modelled literal regex fragment), the matcher returns exactly the
distance test between the first occurrence of the first found part and the
last occurrence of the last found part, both of which exist; in particular
the result is true exactly when that distance is under 200 characters. -/
theorem claim4_theorem (pageText legalName : String)
    (hfrag : fragmentOk (cleanedName legalName) = true)
    (hexact : wordPatternTest (lowerList pageText) (splitWs (cleanedName legalName)) = false)
    (hparts : 2 ≤ (significantParts legalName).length)
    (hfound : 2 ≤ (foundPartsOf pageText legalName).length) :
    containsLegalName pageText legalName = .ok (proximityHitB pageText legalName) ∧
    (jsIndexOf (lowerList pageText)
      ((foundPartsOf pageText legalName).headD [])).isSome = true ∧
    (jsLastIndexOf (lowerList pageText)
      ((foundPartsOf pageText legalName).getLastD [])).isSome = true ∧
    (containsLegalName pageText legalName = .ok true ↔
      proximityHitB pageText legalName = true) := by
  have heq : containsLegalName pageText legalName =
      .ok (proximityHitB pageText legalName) := by
    unfold containsLegalName
    rw [if_neg (trim_ne_of_parts hparts)]
    rw [if_neg (cleanedName_ne_of_parts hparts)]
    rw [if_neg (by rw [hfrag]; intro hc; exact Bool.noConfusion hc)]
    rw [if_neg (by rw [hexact]; intro hc; exact Bool.noConfusion hc)]
    rw [if_pos hparts]
    rw [if_pos hfound]
  have hfne : foundPartsOf pageText legalName ≠ [] := by
    intro hc
    rw [hc] at hfound
    exact absurd hfound (by decide)
  have hhead := headD_mem ([] : List Char) hfne
  have hheadf := List.mem_filter.mp hhead
  have hheadlen := (List.mem_filter.mp hheadf.1).2
  have hheadne : (foundPartsOf pageText legalName).headD [] ≠ [] := by
    intro hc
    rw [hc] at hheadlen
    simp at hheadlen
  have hlast := getLastD_mem ([] : List Char) hfne
  have hlastf := List.mem_filter.mp hlast
  have hlastlen := (List.mem_filter.mp hlastf.1).2
  have hlastne : (foundPartsOf pageText legalName).getLastD [] ≠ [] := by
    intro hc
    rw [hc] at hlastlen
    simp at hlastlen
  refine ⟨heq, wordTest_indexOf_isSome hheadne hheadf.2,
    wordTest_lastIndexOf_isSome hlastne hlastf.2, ?_⟩
  rw [heq]
  simp only [Except.ok.injEq]

set_option maxRecDepth 100000 in
/-- Claim C4 witness: the proximity boundary on the name John Doe, with the
two parts 180 characters apart (accepted) and 200 characters apart
(rejected). -/
theorem claim4_witness :
    fragmentOk (cleanedName "John Doe") = true ∧
    2 ≤ (significantParts "John Doe").length ∧
    wordPatternTest (lowerList prox180Text) (splitWs (cleanedName "John Doe")) = false ∧
    2 ≤ (foundPartsOf prox180Text "John Doe").length ∧
    containsLegalName prox180Text "John Doe" = .ok true ∧
    containsLegalName prox200Text "John Doe" = .ok false := by
  refine ⟨by decide, by decide, by decide, by decide, ?_, ?_⟩
  · have h := claim4_theorem prox180Text "John Doe" (by decide) (by decide)
      (by decide) (by decide)
    rw [h.1]
    decide
  · have h := claim4_theorem prox200Text "John Doe" (by decide) (by decide)
      (by decide) (by decide)
    rw [h.1]
    decide

/-- Claim C7 witness: a concrete skipped link and a concrete caught
exception. -/
theorem claim7_witness :
    siteDown.goto "https://x" = false ∧
    scanLinks ⟨siteDown, "w", .goods, false, "", []⟩ .privacy
        [{ text := "privacy", href := "https://x" }] stServ =
      scanLinks ⟨siteDown, "w", .goods, false, "", []⟩ .privacy [] stServ ∧
    siteEmpty.goto "https://e" = true ∧
    auditPasses cEmptyProp (initScan (determineMerchantType "") "https://e" (isProprietorship "")) =
      .error (regexErrMsg, initScan (determineMerchantType "") "https://e" (isProprietorship "")) ∧
    (checkWebsite siteEmpty "https://e" "" "" "(aa bb").error = some regexErrMsg ∧
    (checkWebsite siteEmpty "https://e" "" "" "(aa bb").missingPolicies = [] := by
  have h2 := (claim7_theorem.2 siteEmpty "https://e" "" "" "(aa bb" regexErrMsg
    (initScan (determineMerchantType "") "https://e" (isProprietorship "")) rfl rfl)
  refine ⟨rfl, ?_, rfl, rfl, h2.1, h2.2.2.2.1⟩
  have hskip := claim7_theorem.1 ⟨siteDown, "w", .goods, false, "", []⟩ .privacy
    { text := "privacy", href := "https://x" } [] stServ
  exact hskip (by decide)

end Crawler
